import Mathlib

/-!
Verification of the dungeon engine (src/dungeon.py) and the sample game
(src/gold_seekers.py): a shallow embedding of the Player / Scene / Map
state machine, its registries, message queues and the regex command
dispatch, together with theorems settling the specification claims.

Conventions of the embedding:
  * Python objects (players, scenes, maps) are identified by natural
    number ids; object identity (the Python `is` operator) is id equality.
  * A `World` maps ids to the mutable state of each object.
  * Python dicts are association lists in insertion order (`dictGet`,
    `dictSet`, `dictDel` mirror `d[k]`, `d[k] = v`, `del d[k]`).
  * Methods are state-passing functions in the monad `Act`; a Python
    exception is an `Err` value; mutations performed before an exception
    is raised stay in place, exactly as in Python.
  * A ghost event trace (`Ev`) records which hooks and which `action_*`
    handlers were invoked; it does not influence the computation.
  * The gettext seam `_(...)` is modelled as the identity on the English
    message ids, per the specification, which treats localization as an
    external collaborator.
-/

namespace Dungeon

/-! ## Python dict operations on association lists -/

/-- Lookup in a Python dict: `d[k]` when present, `none` otherwise. -/
def dictGet {α : Type} : List (String × α) → String → Option α
  | [], _ => none
  | (k, v) :: rest, key => if k = key then some v else dictGet rest key

/-- Assignment `d[key] = v`: replace in place when the key exists,
append otherwise (Python dicts keep insertion order). -/
def dictSet {α : Type} : List (String × α) → String → α → List (String × α)
  | [], key, v => [(key, v)]
  | (k, w) :: rest, key, v =>
      if k = key then (key, v) :: rest else (k, w) :: dictSet rest key v

/-- Deletion `del d[key]` without the key-missing check (callers that model
`del` verify presence first, raising `KeyError` when absent). -/
def dictDel {α : Type} : List (String × α) → String → List (String × α)
  | [], _ => []
  | (k, w) :: rest, key =>
      if k = key then rest else (k, w) :: dictDel rest key

/-! ## Regular expressions

A derivative-based matcher for the small subset of Python `re` used by the
source: literal words (case-insensitive, per the `re.I` flag passed at every
call site), alternation, optional groups, and the class `\s` repeated with
`+`.  `re.fullmatch` anchors at both ends, which is exactly what `RE.fullmatch`
computes.  The `re.X` flag only affects whitespace inside the pattern text and
none of the source patterns contain any, so it needs no model. -/

/-- Characters matched by the regex class `\s` on the inputs of interest. -/
def isPySpace (c : Char) : Bool :=
  c = ' ' || c = '\t' || c = '\n' || c = '\r' || c = '\x0b' || c = '\x0c'

inductive RE where
  | eps : RE
  | cls : (Char → Bool) → RE
  | alt : RE → RE → RE
  | cat : RE → RE → RE
  | star : RE → RE

/-- Does the expression accept the empty string? -/
def RE.nullable : RE → Bool
  | .eps => true
  | .cls _ => false
  | .alt a b => a.nullable || b.nullable
  | .cat a b => a.nullable && b.nullable
  | .star _ => true

/-- Brzozowski derivative by one character. -/
def RE.deriv : RE → Char → RE
  | .eps, _ => .cls fun _ => false
  | .cls p, c => if p c then .eps else .cls fun _ => false
  | .alt a b, c => .alt (a.deriv c) (b.deriv c)
  | .cat a b, c =>
      if a.nullable then .alt (.cat (a.deriv c) b) (b.deriv c)
      else .cat (a.deriv c) b
  | .star a, c => .cat (a.deriv c) (.star a)

def RE.matchList : RE → List Char → Bool
  | r, [] => r.nullable
  | r, c :: cs => (r.deriv c).matchList cs

/-- Model of `re.fullmatch(pattern, s, re.I + re.X)` returning whether a
match exists. -/
def RE.fullmatch (r : RE) (s : String) : Bool :=
  r.matchList s.toList

/-- One literal character under the `re.I` flag. -/
def RE.chr (c : Char) : RE :=
  .cls fun x => x.toLower = c.toLower

/-- A literal word under the `re.I` flag. -/
def RE.strLit (s : String) : RE :=
  s.toList.foldr (fun c r => .cat (.chr c) r) .eps

/-- Postfix `?` on a group. -/
def RE.opt (r : RE) : RE := .alt .eps r

/-- Postfix `+`. -/
def RE.plus (r : RE) : RE := .cat r (.star r)

/-- Class `\s`. -/
def reSpace : RE := .cls isPySpace

/-- Pattern of `Scene.do`: `(?P<scene>exit|quit)(\s+game)?`. -/
def exitQuitRE : RE :=
  .cat (.alt (RE.strLit "exit") (RE.strLit "quit"))
    (RE.opt (.cat (RE.plus reSpace) (RE.strLit "game")))

/-- First pattern of `FirstScene.do`: `(?P<first>left|first)(\s+door)?`. -/
def leftRE : RE :=
  .cat (.alt (RE.strLit "left") (RE.strLit "first"))
    (RE.opt (.cat (RE.plus reSpace) (RE.strLit "door")))

/-- Second pattern of `FirstScene.do`: `(?P<first>right|second)(\s+door)?`. -/
def rightRE : RE :=
  .cat (.alt (RE.strLit "right") (RE.strLit "second"))
    (RE.opt (.cat (RE.plus reSpace) (RE.strLit "door")))

/-- Third pattern of `FirstScene.do`:
`(?P<first>center|central|third)(\s+door)?`. -/
def centerRE : RE :=
  .cat (.alt (.alt (RE.strLit "center") (RE.strLit "central")) (RE.strLit "third"))
    (RE.opt (.cat (RE.plus reSpace) (RE.strLit "door")))

/-! ## Errors, events and object states -/

/-- Python exceptions raised by the engine, one constructor per distinct
raise site or runtime failure mode. -/
inductive Err where
  /-- `KeyError(key)` from a failed dict lookup or a `del` on a missing key. -/
  | keyError (key : String)
  /-- `KeyError` from `Map._get_entity`: the name is present but bound to a
  different object. -/
  | identityMismatch (caption nm : String)
  /-- `RuntimeError` from `Map._add_entity`: this very object was already
  added to the map. -/
  | alreadyRegistered (caption nm : String)
  /-- `RuntimeError` from `Map._add_entity`: a different object with the same
  name exists in the map. -/
  | duplicateName (caption nm : String)
  /-- `RuntimeError` from `Map.remove_scene`: a player occupies the scene. -/
  | sceneInUse (sceneNm playerNm : String)
  /-- A failed `assert` statement. -/
  | assertionError
  /-- `ValueError` from tuple unpacking with the wrong arity. -/
  | valueError (msg : String)
  /-- `AttributeError`: reading a missing attribute, such as `.name` on a
  `str`. -/
  | attributeError (attr : String)
  /-- `NameError`: an unbound global, such as `random` in
  `NormalScene.action_cant_parse`. -/
  | nameError (nm : String)
  /-- Model-level error for a dangling object id; unreachable from states
  where every referenced id is live. -/
  | badHandle
deriving DecidableEq

/-- Ghost trace events: which handlers and hooks were invoked. -/
inductive Ev where
  /-- Body of an `action_*` handler was entered (dynamic dispatch resolved). -/
  | action (nm : String) (sid pid : Nat)
  /-- Body of `_enter_first_time` was entered. -/
  | firstTime (sid pid : Nat)
  /-- Body of `_enter_again` was entered. -/
  | again (sid pid : Nat)
  /-- Body of the base `Scene.do` was entered. -/
  | baseDo (sid : Nat)
deriving DecidableEq

/-- Is this trace event the invocation of an `action_*` handler? -/
def Ev.isAction : Ev → Bool
  | .action _ _ _ => true
  | _ => false

/-- The concrete class of a scene object, for dynamic dispatch.  `scene` is
the base class `dungeon.Scene`; the others come from `gold_seekers.py`. -/
inductive SceneClass where
  | scene | normal | entrance | first | bear | cthulhu | gold | lava
deriving DecidableEq

/-- Mutable state of a `Player` object (`dungeon.Player`). -/
structure Player where
  /-- `self._name`, fixed at construction. -/
  name : String
  /-- `self._inv`; not touched by any modelled operation. -/
  inv : List (String × Int)
  /-- `self._state`, such as the `boredom` counter of `NormalPlayer`. -/
  state : List (String × Int)
  /-- `self._messages`, a FIFO queue of outbound text. -/
  messages : List String
  /-- `self._map`: id of the hosting map, when attached. -/
  map : Option Nat
  /-- `self._scene`: id of the current scene, when set. -/
  scene : Option Nat
deriving DecidableEq

/-- Mutable state of a `Scene` object. -/
structure Scene where
  /-- Dynamic class of the object. -/
  cls : SceneClass
  /-- `self._name`. -/
  name : String
  /-- `self._map`: id of the owning map. -/
  map : Nat
  /-- `self._state`, such as `bear_moved` of `BearScene`. -/
  state : List (String × Bool)
deriving DecidableEq

/-- Mutable state of a `Map` object (named `GameMap` here because the class
name `Map` collides with library names). -/
structure GameMap where
  /-- `self._name`. -/
  name : String
  /-- `self._starting_scene`: a scene name, or `None`. -/
  starting_scene : Option String
  /-- `self._scenes`: the scene registry, name to scene id. -/
  scenes : List (String × Nat)
  /-- `self._players`: the player registry, name to player id. -/
  players : List (String × Nat)
deriving DecidableEq

/-- The heap: object states addressed by id. -/
structure World where
  players : Nat → Option Player
  scenes : Nat → Option Scene
  maps : Nat → Option GameMap

/-- Replace the state of player `pid`. -/
def World.setPlayer (w : World) (pid : Nat) (p : Player) : World :=
  { w with players := fun i => if i = pid then some p else w.players i }

/-- Replace the state of scene `sid`. -/
def World.setScene (w : World) (sid : Nat) (s : Scene) : World :=
  { w with scenes := fun i => if i = sid then some s else w.scenes i }

/-- Replace the state of map `mid`. -/
def World.setMap (w : World) (mid : Nat) (m : GameMap) : World :=
  { w with maps := fun i => if i = mid then some m else w.maps i }

/-! ## The effect monad

State passing with Python exception semantics: an escaping exception leaves
every mutation made so far in place.  The third component is the ghost event
trace of the call. -/

def Act (α : Type) : Type := World → Except Err α × World × List Ev

def Act.pureF {α : Type} (a : α) : Act α := fun w => (.ok a, w, [])

def Act.bindF {α β : Type} (x : Act α) (f : α → Act β) : Act β := fun w =>
  match x w with
  | (.ok a, w1, t1) =>
      match f a w1 with
      | (r, w2, t2) => (r, w2, t1 ++ t2)
  | (.error e, w1, t1) => (.error e, w1, t1)

instance instMonadAct : Monad Act where
  pure := Act.pureF
  bind := Act.bindF

/-- Raise a Python exception. -/
def throwE {α : Type} (e : Err) : Act α := fun w => (.error e, w, [])

/-- Record a ghost trace event. -/
def emitEv (e : Ev) : Act Unit := fun w => (.ok (), w, [e])

/-- Dereference a player id. -/
def getPlayerA (pid : Nat) : Act Player := fun w =>
  match w.players pid with
  | some p => (.ok p, w, [])
  | none => (.error .badHandle, w, [])

/-- Dereference a scene id. -/
def getSceneA (sid : Nat) : Act Scene := fun w =>
  match w.scenes sid with
  | some s => (.ok s, w, [])
  | none => (.error .badHandle, w, [])

/-- Dereference a map id. -/
def getMapA (mid : Nat) : Act GameMap := fun w =>
  match w.maps mid with
  | some m => (.ok m, w, [])
  | none => (.error .badHandle, w, [])

/-- Attribute assignment on a player object: read, transform, write back. -/
def modPlayerA (pid : Nat) (f : Player → Player) : Act Unit := fun w =>
  match w.players pid with
  | some p => (.ok (), w.setPlayer pid (f p), [])
  | none => (.error .badHandle, w, [])

/-- Attribute assignment on a scene object. -/
def modSceneA (sid : Nat) (f : Scene → Scene) : Act Unit := fun w =>
  match w.scenes sid with
  | some s => (.ok (), w.setScene sid (f s), [])
  | none => (.error .badHandle, w, [])

/-- Attribute assignment on a map object. -/
def modMapA (mid : Nat) (f : GameMap → GameMap) : Act Unit := fun w =>
  match w.maps mid with
  | some m => (.ok (), w.setMap mid (f m), [])
  | none => (.error .badHandle, w, [])

/-! ## References and registries -/

/-- A `str | Player` or `str | Scene` argument: a name or the object itself. -/
inductive EntRef where
  | name (s : String)
  | obj (id : Nat)
deriving DecidableEq

/-- Which kind of entity a registry holds, used to read `.name` off a
referenced object. -/
inductive EntKind where
  | scene | player
deriving DecidableEq

/-- Read `obj_ref.name` for an entity reference. -/
def entityNameA : EntKind → Nat → Act String
  | .scene, i => do
      let s ← getSceneA i
      pure s.name
  | .player, i => do
      let p ← getPlayerA i
      pure p.name

/-! ## Player message queue

The queue class `dsent.lists.Queue` is not part of the source tree; only its
use sites are.  Modelled from the spec: MessageQueue is an ordered FIFO buffer,
`append` adds to the back, iteration pops from the front, and `next(q, None)`
returns `None` once the queue is empty. -/

/-- Method `Player.push_msg`: `self._messages.append(message)`. -/
def Player.push_msg (pid : Nat) (message : String) : Act Unit :=
  modPlayerA pid fun p => { p with messages := p.messages ++ [message] }

/-- Method `Player.pop_msg`: `next(self._messages, None)`. -/
def Player.pop_msg (pid : Nat) : Act (Option String) := do
  let p ← getPlayerA pid
  match p.messages with
  | [] => pure none
  | msg :: _ => do
      modPlayerA pid fun q => { q with messages := q.messages.tail }
      pure (some msg)

/-! ## Map registry operations -/

/-- Static method `Map._add_entity`, acting on one registry dict.  Raises when
the name is taken; inserts otherwise. -/
def GameMap.add_entity (obj_name : String) (obj : Nat)
    (ent_dict : List (String × Nat)) (obj_caption : String) :
    Except Err (List (String × Nat)) :=
  match dictGet ent_dict obj_name with
  | some existing =>
      if existing = obj then .error (.alreadyRegistered obj_caption obj_name)
      else .error (.duplicateName obj_caption obj_name)
  | none => .ok (dictSet ent_dict obj_name obj)

/-- Method `Map.add_scene`. -/
def GameMap.add_scene (mid : Nat) (sid : Nat) : Act Unit := do
  let m ← getMapA mid
  let sc ← getSceneA sid
  match GameMap.add_entity sc.name sid m.scenes "scene" with
  | .ok d => modMapA mid fun mm => { mm with scenes := d }
  | .error e => throwE e

/-- Method `Map.add_player`: register, then queue the welcome message. -/
def GameMap.add_player (mid : Nat) (pid : Nat) : Act Unit := do
  let m ← getMapA mid
  let p ← getPlayerA pid
  match GameMap.add_entity p.name pid m.players "player" with
  | .ok d => do
      modMapA mid fun mm => { mm with players := d }
      Player.push_msg pid
        ("Welcome, player " ++ p.name ++ " to the map " ++ m.name ++ "!")
  | .error e => throwE e

/-- Static method `Map._get_entity`: resolve a name to the registered id, or
check that an object reference is the object currently registered under its
name. -/
def GameMap.get_entity (k : EntKind) (obj_ref : EntRef)
    (ent_dict : List (String × Nat)) (obj_caption : String) : Act Nat :=
  match obj_ref with
  | .name s =>
      match dictGet ent_dict s with
      | some i => pure i
      | none => throwE (.keyError s)
  | .obj i => do
      let n ← entityNameA k i
      match dictGet ent_dict n with
      | none => throwE (.keyError n)
      | some j =>
          if j = i then pure i
          else throwE (.identityMismatch obj_caption n)

/-- Method `Map.scene`. -/
def GameMap.scene (mid : Nat) (scene_ref : EntRef) : Act Nat := do
  let m ← getMapA mid
  GameMap.get_entity .scene scene_ref m.scenes "scene"

/-- Method `Map.player`. -/
def GameMap.player (mid : Nat) (player_ref : EntRef) : Act Nat := do
  let m ← getMapA mid
  GameMap.get_entity .player player_ref m.players "player"

/-- Method `Map.remove_player`: resolve, then `del self._players[name]`. -/
def GameMap.remove_player (mid : Nat) (player_ref : EntRef) : Act Unit := do
  let the_player ← GameMap.player mid player_ref
  let pname ← entityNameA .player the_player
  let m ← getMapA mid
  match dictGet m.players pname with
  | some _ => modMapA mid fun mm => { mm with players := dictDel mm.players pname }
  | none => throwE (.keyError pname)

/-- The loop `for _, p in self._players:` inside `Map.remove_scene`.  The
source iterates the dict itself, so it yields the KEY strings, not the
players.  Unpacking a key of length two binds its characters and the
following `assert isinstance(p, Player)` fails; any other length fails the
unpacking itself.  The `if p.scene is scene_ref: raise RuntimeError(...)`
check below the assert is therefore unreachable whenever the registry is
non-empty. -/
def GameMap.remove_scene_loop : List String → Act Unit
  | [] => pure ()
  | k :: _ =>
      if k.length = 2 then throwE .assertionError
      else throwE (.valueError "unpack")

/-- Method `Map.remove_scene`: resolve, run the (broken) occupancy check,
then `del self._scenes[scene_ref.name]` — which reads `.name` off the raw
argument, an `AttributeError` when a name string was passed. -/
def GameMap.remove_scene (mid : Nat) (scene_ref : EntRef) : Act Unit := do
  let _the_scene ← GameMap.scene mid scene_ref
  let m ← getMapA mid
  GameMap.remove_scene_loop (m.players.map Prod.fst)
  match scene_ref with
  | .name _ => throwE (.attributeError "name")
  | .obj i => do
      let n ← entityNameA .scene i
      let m2 ← getMapA mid
      match dictGet m2.scenes n with
      | some _ => modMapA mid fun mm => { mm with scenes := dictDel mm.scenes n }
      | none => throwE (.keyError n)

/-! ## Scene lifecycle -/

/-- Message pushed by `_enter_first_time`, per dynamic class.  The base text
is from `dungeon.Scene`; `NormalScene` does not override the hook. -/
def firstTimeMsg : SceneClass → String
  | .scene | .normal => "You\x27re standing in some nondescript room."
  | .entrance => "You\x27re at the entrance."
  | .first => "You\x27re in a dark room. There are three doors: left, right and center."
  | .bear => "There is a fat bear here. He has a pot of honey. There is a door right before you."
  | .cthulhu => "You see Cthulhu. You can try to flee or eat your head."
  | .gold => "This room is full of gold. You should take some."
  | .lava => "The room is filled with lava."

/-- Message pushed by `_enter_again`, per dynamic class; classes without an
override inherit the base text. -/
def againMsg : SceneClass → String
  | .entrance => "You\x27re still at the entrance."
  | .first => "You\x27re still in the dark room with three doors."
  | .bear => "The bear is still here."
  | _ => "How did you do that, cheater?"

/-- Hook `_enter_first_time` (dynamically dispatched). -/
def Scene.enter_first_time (sid pid : Nat) : Act Unit := do
  emitEv (Ev.firstTime sid pid)
  let sc ← getSceneA sid
  Player.push_msg pid (firstTimeMsg sc.cls)

/-- Hook `_enter_again` (dynamically dispatched). -/
def Scene.enter_again (sid pid : Nat) : Act Unit := do
  emitEv (Ev.again sid pid)
  let sc ← getSceneA sid
  Player.push_msg pid (againMsg sc.cls)

/-- Method `dungeon.Scene.enter`: resolve the player; a first-time entry sets
the current-scene pointer and runs the first-time hook, otherwise the repeat
hook runs. -/
def Scene.enter_base (sid : Nat) (player_ref : EntRef) : Act Unit := do
  let sc ← getSceneA sid
  let pid ← GameMap.player sc.map player_ref
  let p ← getPlayerA pid
  if p.scene ≠ some sid then do
    modPlayerA pid fun q => { q with scene := some sid }
    Scene.enter_first_time sid pid
  else
    Scene.enter_again sid pid

/-- Virtual `enter`: `BearScene.enter` runs the base method and then reports
the position of the bear; every other class uses the base method. -/
def Scene.enter (sid : Nat) (player_ref : EntRef) : Act Unit := do
  let sc ← getSceneA sid
  match sc.cls with
  | .bear => do
      Scene.enter_base sid player_ref
      let pid ← GameMap.player sc.map player_ref
      let sc2 ← getSceneA sid
      match dictGet sc2.state "bear_moved" with
      | none => throwE (.keyError "bear_moved")
      | some true => Player.push_msg pid "Bears sits a few feet away from the door."
      | some false => Player.push_msg pid "Bears sits in front of a door."
  | _ => Scene.enter_base sid player_ref

/-! ## Player map attachment -/

/-- Method `Player.leave_map`: a no-op when unattached; otherwise deregister
and clear both references. -/
def Player.leave_map (pid : Nat) : Act Unit := do
  let p ← getPlayerA pid
  match p.map with
  | none => pure ()
  | some mid => do
      GameMap.remove_player mid (EntRef.obj pid)
      modPlayerA pid fun q => { q with map := none, scene := none }

/-- The `if scene_ref is None: scene_ref = self._map.starting_scene` step of
`Player.enter_map`: an explicit reference is kept; otherwise the starting
scene name is read off the map, and a missing default makes the subsequent
`self.scene(None)` dereference `None.name` (`AttributeError`). -/
def Player.default_scene_ref (game_map : Nat) (scene_ref : Option EntRef) :
    Act EntRef :=
  match scene_ref with
  | some r => pure r
  | none => do
      let m ← getMapA game_map
      match m.starting_scene with
      | some s => pure (EntRef.name s)
      | none => throwE (.attributeError "name")

/-- Body of `Player.enter_map` after the initial `self.leave_map()`: set
`self._map`, register (the map pointer is set BEFORE `add_player`, exactly as
in the source), then enter the requested or default starting scene. -/
def Player.enter_map_rest (pid : Nat) (game_map : Nat) (scene_ref : Option EntRef) :
    Act Unit := do
  modPlayerA pid fun p => { p with map := some game_map }
  GameMap.add_player game_map pid
  let sref ← Player.default_scene_ref game_map scene_ref
  let sid ← GameMap.scene game_map sref
  Scene.enter sid (EntRef.obj pid)

/-- Method `Player.enter_map`: leave the old map, then attach to the new one. -/
def Player.enter_map (pid : Nat) (game_map : Nat) (scene_ref : Option EntRef) :
    Act Unit := do
  Player.leave_map pid
  Player.enter_map_rest pid game_map scene_ref

/-! ## Command dispatch -/

/-- Tuple `NormalScene._msg_excitement`. -/
def NormalScene.msg_excitement : List (Int × String) :=
  [(2, "enthusiastic"), (4, "excited"), (6, "active"), (8, "calm"),
   (10, "bored"), (12, "extremely bored"), (14, "fed up with your life")]

/-- The scan inside `NormalScene._excitement`; `none` is the `False` of the
source (death from boredom). -/
def NormalScene.excitement_scan : List (Int × String) → Int → Option String
  | [], _ => none
  | (lvl, msg) :: rest, level =>
      if level ≤ lvl then some msg else NormalScene.excitement_scan rest level

/-- Method `NormalScene._excitement`. -/
def NormalScene.excitement (level : Int) : Option String :=
  NormalScene.excitement_scan NormalScene.msg_excitement level

/-- Rendering of the `_excitement` result inside `str.format`: Python prints
the value `False` as the text `False`. -/
def excitementStr : Option String → String
  | some s => s
  | none => "False"

/-- Method `NormalScene._something_changed`: reward progress by lowering the
boredom counter. -/
def NormalScene.something_changed (pid : Nat) : Act Unit := do
  let p ← getPlayerA pid
  match dictGet p.state "boredom" with
  | none => throwE (.keyError "boredom")
  | some b =>
      if b > 2 then do
        let b2 : Int := if b ≤ 10 then 0 else b - 10
        modPlayerA pid fun q => { q with state := dictSet q.state "boredom" b2 }
        Player.push_msg pid
          ("That was refreshing. You\x27re now " ++
            excitementStr (NormalScene.excitement b2) ++ ".")
      else pure ()

/-- Method `Scene.action_exit`: farewell, game over. -/
def Scene.action_exit (sid pid : Nat) : Act Bool := do
  emitEv (Ev.action "action_exit" sid pid)
  Player.push_msg pid "Goodbye!"
  pure false

/-- Virtual `action_cant_parse`.  The base class queues the clarification and
ends the game; the `NormalScene` override evaluates `random.choice(...)`
first, and the name `random` is not bound in `gold_seekers.py`, so every
subclass of `NormalScene` raises `NameError` here. -/
def Scene.action_cant_parse (sid pid : Nat) : Act Bool := do
  emitEv (Ev.action "action_cant_parse" sid pid)
  let sc ← getSceneA sid
  match sc.cls with
  | .scene => do
      Player.push_msg pid "I don\x27t understand that."
      pure false
  | _ => throwE (.nameError "random")

/-- Method `dungeon.Scene.do`: when the input was not already handled, try the
exit pattern and fall back to `action_cant_parse`. -/
def Scene.do_ (sid : Nat) (player_ref : EntRef) (input_str : String)
    (game_on : Option Bool) : Act Bool := do
  emitEv (Ev.baseDo sid)
  match game_on with
  | some b => pure b
  | none => do
      let sc ← getSceneA sid
      let pid ← GameMap.player sc.map player_ref
      if RE.fullmatch exitQuitRE input_str then
        Scene.action_exit sid pid
      else
        Scene.action_cant_parse sid pid

/-- Method `FirstScene.action_left`. -/
def FirstScene.action_left (sid pid : Nat) : Act Bool := do
  emitEv (Ev.action "action_left" sid pid)
  Player.push_msg pid "Excellent choice! Or not."
  NormalScene.something_changed pid
  let sc ← getSceneA sid
  let bid ← GameMap.scene sc.map (EntRef.name "bear")
  Scene.enter bid (EntRef.obj pid)
  pure true

/-- Method `FirstScene.action_right`. -/
def FirstScene.action_right (sid pid : Nat) : Act Bool := do
  emitEv (Ev.action "action_right" sid pid)
  Player.push_msg pid "Fantastic choice! No, wait, it isn\x27t."
  NormalScene.something_changed pid
  let sc ← getSceneA sid
  let cid ← GameMap.scene sc.map (EntRef.name "cthulhu")
  Scene.enter cid (EntRef.obj pid)
  pure true

/-- Method `FirstScene.action_center`. -/
def FirstScene.action_center (sid pid : Nat) : Act Bool := do
  emitEv (Ev.action "action_center" sid pid)
  Player.push_msg pid "You were asking for trouble."
  NormalScene.something_changed pid
  let sc ← getSceneA sid
  let lid ← GameMap.scene sc.map (EntRef.name "lava")
  Scene.enter lid (EntRef.obj pid)
  pure true

/-- Method `FirstScene.do`: resolve the player, then try the ordered dispatch
list top to bottom, first full match wins; with no match, defer to the parent
method (`NormalScene` inherits the base `Scene.do`). -/
def FirstScene.do_ (sid : Nat) (player_ref : EntRef) (input_str : String)
    (game_on : Option Bool) : Act Bool := do
  let sc ← getSceneA sid
  let pid ← GameMap.player sc.map player_ref
  match game_on with
  | some b => pure b
  | none =>
      if RE.fullmatch leftRE input_str then FirstScene.action_left sid pid
      else if RE.fullmatch rightRE input_str then FirstScene.action_right sid pid
      else if RE.fullmatch centerRE input_str then FirstScene.action_center sid pid
      else Scene.do_ sid (EntRef.obj pid) input_str none

/-- Name slot logic of `Player.__init__`: `None` and the empty string both
give the (translated) default name. -/
def Player.init_name (name : Option String) : String :=
  match name with
  | none => "Nameless"
  | some s => if s = "" then "Nameless" else s

/-! ## Basic lemmas: dicts, world updates, monad runs -/

theorem dictGet_dictSet_self {α : Type} (d : List (String × α)) (k : String) (v : α) :
    dictGet (dictSet d k v) k = some v := by
  induction d with
  | nil => simp [dictGet, dictSet]
  | cons hd tl ih =>
      obtain ⟨k0, v0⟩ := hd
      by_cases h : k0 = k <;> simp [dictGet, dictSet, h, ih]

theorem dictGet_dictSet_ne {α : Type} (d : List (String × α)) (k k2 : String) (v : α)
    (h : k2 ≠ k) : dictGet (dictSet d k v) k2 = dictGet d k2 := by
  induction d with
  | nil =>
      simp only [dictSet, dictGet]
      rw [if_neg (fun hh => h hh.symm)]
  | cons hd tl ih =>
      obtain ⟨k0, v0⟩ := hd
      by_cases h0 : k0 = k
      · subst h0
        simp only [dictSet, if_pos rfl, dictGet]
        rw [if_neg (fun hh => h hh.symm), if_neg (fun hh => h hh.symm)]
      · simp only [dictSet, if_neg h0, dictGet]
        by_cases h2 : k0 = k2
        · rw [if_pos h2, if_pos h2]
        · rw [if_neg h2, if_neg h2, ih]

theorem dictGet_dictDel_ne {α : Type} (d : List (String × α)) (k k2 : String)
    (h : k2 ≠ k) : dictGet (dictDel d k) k2 = dictGet d k2 := by
  induction d with
  | nil => simp [dictDel]
  | cons hd tl ih =>
      obtain ⟨k0, v0⟩ := hd
      by_cases h0 : k0 = k
      · subst h0
        have hdel : dictDel ((k0, v0) :: tl) k0 = tl := by simp [dictDel]
        rw [hdel]
        show dictGet tl k2 = dictGet ((k0, v0) :: tl) k2
        simp only [dictGet]
        rw [if_neg (fun hh : k0 = k2 => h hh.symm)]
      · simp only [dictDel, if_neg h0, dictGet]
        by_cases h2 : k0 = k2
        · rw [if_pos h2, if_pos h2]
        · rw [if_neg h2, if_neg h2, ih]

/-- Presence of a binding implies presence among the keys. -/
theorem mem_keys_of_dictGet {α : Type} (d : List (String × α)) (k : String) (v : α)
    (h : dictGet d k = some v) : k ∈ d.map Prod.fst := by
  induction d with
  | nil => simp [dictGet] at h
  | cons hd tl ih =>
      obtain ⟨k0, v0⟩ := hd
      by_cases h0 : k0 = k
      · simp [h0]
      · simp only [dictGet, if_neg h0] at h
        exact List.mem_cons_of_mem _ (ih h)

theorem dictGet_none_of_not_mem_keys {α : Type} (d : List (String × α)) (k : String)
    (h : k ∉ d.map Prod.fst) : dictGet d k = none := by
  induction d with
  | nil => simp [dictGet]
  | cons hd tl ih =>
      obtain ⟨k0, v0⟩ := hd
      simp only [List.map_cons, List.mem_cons, not_or] at h
      simp only [dictGet, if_neg (fun h2 : k0 = k => h.1 h2.symm)]
      exact ih h.2

theorem dictGet_dictDel_self {α : Type} (d : List (String × α)) (k : String)
    (hnd : (d.map Prod.fst).Nodup) : dictGet (dictDel d k) k = none := by
  induction d with
  | nil => simp [dictDel, dictGet]
  | cons hd tl ih =>
      obtain ⟨k0, v0⟩ := hd
      simp only [List.map_cons, List.nodup_cons] at hnd
      by_cases h0 : k0 = k
      · subst h0
        simp only [dictDel, if_pos rfl]
        exact dictGet_none_of_not_mem_keys tl k0 hnd.1
      · simp only [dictDel, if_neg h0, dictGet, if_neg h0]
        exact ih hnd.2

theorem mem_keys_dictSet {α : Type} (d : List (String × α)) (k k1 : String) (v : α)
    (h : k1 ∈ (dictSet d k v).map Prod.fst) : k1 ∈ d.map Prod.fst ∨ k1 = k := by
  induction d with
  | nil => exact Or.inr (by simpa [dictSet] using h)
  | cons hd tl ih =>
      obtain ⟨k0, v0⟩ := hd
      by_cases h0 : k0 = k
      · subst h0
        rcases (by simpa [dictSet] using h : k1 = k0 ∨ k1 ∈ tl.map Prod.fst) with h1 | h1
        · exact Or.inr h1
        · exact Or.inl (by simp [h1])
      · rcases (by simpa [dictSet, h0] using h :
            k1 = k0 ∨ k1 ∈ (dictSet tl k v).map Prod.fst) with h1 | h1
        · exact Or.inl (by simp [h1])
        · rcases ih h1 with h2 | h2
          · exact Or.inl (by simp [h2])
          · exact Or.inr h2

theorem mem_keys_dictDel {α : Type} (d : List (String × α)) (k k1 : String)
    (h : k1 ∈ (dictDel d k).map Prod.fst) : k1 ∈ d.map Prod.fst := by
  induction d with
  | nil => exact absurd h (by simp [dictDel])
  | cons hd tl ih =>
      obtain ⟨k0, v0⟩ := hd
      by_cases h0 : k0 = k
      · exact List.mem_cons_of_mem _ (by simpa [dictDel, h0] using h)
      · rcases (by simpa [dictDel, h0] using h :
            k1 = k0 ∨ k1 ∈ (dictDel tl k).map Prod.fst) with h1 | h1
        · exact List.mem_cons.mpr (Or.inl (by simp [h1]))
        · exact List.mem_cons_of_mem _ (ih h1)

theorem nodup_keys_dictSet {α : Type} (d : List (String × α)) (k : String) (v : α)
    (hnd : (d.map Prod.fst).Nodup) : ((dictSet d k v).map Prod.fst).Nodup := by
  induction d with
  | nil => simp [dictSet]
  | cons hd tl ih =>
      obtain ⟨k0, v0⟩ := hd
      simp only [List.map_cons, List.nodup_cons] at hnd
      by_cases h0 : k0 = k
      · subst h0
        have hset : dictSet ((k0, v0) :: tl) k0 v = (k0, v) :: tl := by
          simp [dictSet]
        rw [hset, List.map_cons, List.nodup_cons]
        exact hnd
      · simp only [dictSet, if_neg h0, List.map_cons, List.nodup_cons]
        refine ⟨fun hmem => ?_, ih hnd.2⟩
        rcases mem_keys_dictSet tl k k0 v hmem with h1 | h1
        · exact hnd.1 h1
        · exact h0 h1

theorem nodup_keys_dictDel {α : Type} (d : List (String × α)) (k : String)
    (hnd : (d.map Prod.fst).Nodup) : ((dictDel d k).map Prod.fst).Nodup := by
  induction d with
  | nil => simp [dictDel]
  | cons hd tl ih =>
      obtain ⟨k0, v0⟩ := hd
      simp only [List.map_cons, List.nodup_cons] at hnd
      by_cases h0 : k0 = k
      · simpa [dictDel, h0] using hnd.2
      · simp only [dictDel, if_neg h0, List.map_cons, List.nodup_cons]
        exact ⟨fun hmem => hnd.1 (mem_keys_dictDel tl k k0 hmem), ih hnd.2⟩

theorem dictGet_of_dictDel {α : Type} (d : List (String × α)) (k nm : String) (v : α)
    (hnd : (d.map Prod.fst).Nodup)
    (h : dictGet (dictDel d k) nm = some v) : dictGet d nm = some v := by
  by_cases hk : nm = k
  · subst hk
    rw [dictGet_dictDel_self d nm hnd] at h
    cases h
  · rwa [dictGet_dictDel_ne d k nm hk] at h

/-! World update lookups -/

@[simp] theorem World.players_setPlayer_self (w : World) (pid : Nat) (p : Player) :
    (w.setPlayer pid p).players pid = some p := by
  simp [World.setPlayer]

theorem World.players_setPlayer_ne (w : World) (pid i : Nat) (p : Player) (h : i ≠ pid) :
    (w.setPlayer pid p).players i = w.players i := by
  simp [World.setPlayer, h]

@[simp] theorem World.scenes_setPlayer (w : World) (pid : Nat) (p : Player) :
    (w.setPlayer pid p).scenes = w.scenes := rfl

@[simp] theorem World.maps_setPlayer (w : World) (pid : Nat) (p : Player) :
    (w.setPlayer pid p).maps = w.maps := rfl

@[simp] theorem World.maps_setMap_self (w : World) (mid : Nat) (m : GameMap) :
    (w.setMap mid m).maps mid = some m := by
  simp [World.setMap]

theorem World.maps_setMap_ne (w : World) (mid i : Nat) (m : GameMap) (h : i ≠ mid) :
    (w.setMap mid m).maps i = w.maps i := by
  simp [World.setMap, h]

@[simp] theorem World.players_setMap (w : World) (mid : Nat) (m : GameMap) :
    (w.setMap mid m).players = w.players := rfl

@[simp] theorem World.scenes_setMap (w : World) (mid : Nat) (m : GameMap) :
    (w.setMap mid m).scenes = w.scenes := rfl

@[simp] theorem World.scenes_setScene_self (w : World) (sid : Nat) (s : Scene) :
    (w.setScene sid s).scenes sid = some s := by
  simp [World.setScene]

theorem World.scenes_setScene_ne (w : World) (sid i : Nat) (s : Scene) (h : i ≠ sid) :
    (w.setScene sid s).scenes i = w.scenes i := by
  simp [World.setScene, h]

@[simp] theorem World.players_setScene (w : World) (sid : Nat) (s : Scene) :
    (w.setScene sid s).players = w.players := rfl

@[simp] theorem World.maps_setScene (w : World) (sid : Nat) (s : Scene) :
    (w.setScene sid s).maps = w.maps := rfl

theorem World.setPlayer_setPlayer (w : World) (pid : Nat) (p q : Player) :
    (w.setPlayer pid p).setPlayer pid q = w.setPlayer pid q := by
  simp only [World.setPlayer]
  congr 1
  funext i
  by_cases h : i = pid <;> simp [h]

/-! Monad run equations -/

theorem Act.run_bind_ok {α β : Type} (x : Act α) (f : α → Act β) {w w1 w2 : World}
    {a : α} {t1 t2 : List Ev} {r : Except Err β}
    (h : x w = (.ok a, w1, t1)) (h2 : f a w1 = (r, w2, t2)) :
    (x >>= f) w = (r, w2, t1 ++ t2) := by
  show Act.bindF x f w = _
  simp only [Act.bindF, h, h2]

theorem Act.run_bind_err {α β : Type} (x : Act α) (f : α → Act β) {w w1 : World}
    {e : Err} {t1 : List Ev} (h : x w = (.error e, w1, t1)) :
    (x >>= f) w = (.error e, w1, t1) := by
  show Act.bindF x f w = _
  simp only [Act.bindF, h]

@[simp] theorem Act.run_pure {α : Type} (a : α) (w : World) :
    (pure a : Act α) w = (.ok a, w, []) := rfl

@[simp] theorem Act.run_throwE {α : Type} (e : Err) (w : World) :
    (throwE e : Act α) w = (.error e, w, []) := rfl

@[simp] theorem Act.run_emitEv (e : Ev) (w : World) :
    emitEv e w = (.ok (), w, [e]) := rfl

theorem Act.run_getPlayerA {pid : Nat} {w : World} {p : Player}
    (h : w.players pid = some p) : getPlayerA pid w = (.ok p, w, []) := by
  simp [getPlayerA, h]

theorem Act.run_getSceneA {sid : Nat} {w : World} {s : Scene}
    (h : w.scenes sid = some s) : getSceneA sid w = (.ok s, w, []) := by
  simp [getSceneA, h]

theorem Act.run_getMapA {mid : Nat} {w : World} {m : GameMap}
    (h : w.maps mid = some m) : getMapA mid w = (.ok m, w, []) := by
  simp [getMapA, h]

theorem Act.run_modPlayerA {pid : Nat} {w : World} {p : Player} {f : Player → Player}
    (h : w.players pid = some p) :
    modPlayerA pid f w = (.ok (), w.setPlayer pid (f p), []) := by
  simp [modPlayerA, h]

theorem Act.run_modMapA {mid : Nat} {w : World} {m : GameMap} {f : GameMap → GameMap}
    (h : w.maps mid = some m) :
    modMapA mid f w = (.ok (), w.setMap mid (f m), []) := by
  simp [modMapA, h]

theorem Act.run_modSceneA {sid : Nat} {w : World} {s : Scene} {f : Scene → Scene}
    (h : w.scenes sid = some s) :
    modSceneA sid f w = (.ok (), w.setScene sid (f s), []) := by
  simp [modSceneA, h]

theorem World.setMap_setPlayer_comm (w : World) (mid pid : Nat) (m : GameMap) (p : Player) :
    (w.setPlayer pid p).setMap mid m = (w.setMap mid m).setPlayer pid p := rfl

/-! ## Run characterizations of the engine operations -/

theorem run_push_msg {pid : Nat} {w : World} {p : Player} (msg : String)
    (h : w.players pid = some p) :
    Player.push_msg pid msg w =
      (.ok (), w.setPlayer pid { p with messages := p.messages ++ [msg] }, []) := by
  rw [Player.push_msg]
  exact Act.run_modPlayerA h

theorem run_map_player_obj {mid pid : Nat} {w : World} {ms : GameMap} {p : Player}
    (hm : w.maps mid = some ms) (hp : w.players pid = some p)
    (hreg : dictGet ms.players p.name = some pid) :
    GameMap.player mid (EntRef.obj pid) w = (.ok pid, w, []) := by
  simp [GameMap.player, GameMap.get_entity, entityNameA, Bind.bind, Act.bindF,
    Pure.pure, Act.pureF, getMapA, getPlayerA, hm, hp, hreg]

theorem run_map_player_name {mid pid : Nat} {w : World} {ms : GameMap} {pname : String}
    (hm : w.maps mid = some ms) (hreg : dictGet ms.players pname = some pid) :
    GameMap.player mid (EntRef.name pname) w = (.ok pid, w, []) := by
  simp [GameMap.player, GameMap.get_entity, Bind.bind, Act.bindF,
    Pure.pure, Act.pureF, getMapA, hm, hreg]

theorem run_map_scene_name {mid sid : Nat} {w : World} {ms : GameMap} {sname : String}
    (hm : w.maps mid = some ms) (hreg : dictGet ms.scenes sname = some sid) :
    GameMap.scene mid (EntRef.name sname) w = (.ok sid, w, []) := by
  simp [GameMap.scene, GameMap.get_entity, Bind.bind, Act.bindF,
    Pure.pure, Act.pureF, getMapA, hm, hreg]

theorem run_leave_map_unattached {pid : Nat} {w : World} {p : Player}
    (hp : w.players pid = some p) (hm : p.map = none) :
    Player.leave_map pid w = (.ok (), w, []) := by
  simp [Player.leave_map, Bind.bind, Act.bindF, Pure.pure, Act.pureF,
    getPlayerA, hp, hm]

theorem run_remove_player_obj {mid pid : Nat} {w : World} {ms : GameMap} {p : Player}
    (hm : w.maps mid = some ms) (hp : w.players pid = some p)
    (hreg : dictGet ms.players p.name = some pid) :
    GameMap.remove_player mid (EntRef.obj pid) w =
      (.ok (), w.setMap mid { ms with players := dictDel ms.players p.name }, []) := by
  simp [GameMap.remove_player, Bind.bind, Act.bindF, Pure.pure, Act.pureF,
    entityNameA, getPlayerA, getMapA, modMapA, hp, hm, hreg,
    run_map_player_obj hm hp hreg]

theorem run_leave_map_attached {pid mid : Nat} {w : World} {p : Player} {ms : GameMap}
    (hp : w.players pid = some p) (hmap : p.map = some mid)
    (hm : w.maps mid = some ms) (hreg : dictGet ms.players p.name = some pid) :
    Player.leave_map pid w =
      (.ok (), (w.setMap mid { ms with players := dictDel ms.players p.name }).setPlayer
        pid { p with map := none, scene := none }, []) := by
  simp [Player.leave_map, Bind.bind, Act.bindF, Pure.pure, Act.pureF,
    getPlayerA, modPlayerA, hp, hmap,
    run_remove_player_obj hm hp hreg]

theorem run_add_player_ok {mid pid : Nat} {w : World} {ms : GameMap} {p : Player}
    (hm : w.maps mid = some ms) (hp : w.players pid = some p)
    (hfree : dictGet ms.players p.name = none) :
    GameMap.add_player mid pid w =
      (.ok (), (w.setMap mid { ms with players := dictSet ms.players p.name pid }).setPlayer
        pid { p with messages := p.messages ++
          ["Welcome, player " ++ p.name ++ " to the map " ++ ms.name ++ "!"] }, []) := by
  simp [GameMap.add_player, GameMap.add_entity, Bind.bind, Act.bindF, Pure.pure,
    Act.pureF, getMapA, getPlayerA, modMapA, hm, hp, hfree,
    run_push_msg _ (show ((w.setMap mid { ms with players := dictSet ms.players p.name pid }).players pid) = some p from hp)]

theorem run_enter_first_time {sid pid : Nat} {w : World} {sc : Scene} {p : Player}
    (hs : w.scenes sid = some sc) (hp : w.players pid = some p) :
    Scene.enter_first_time sid pid w =
      (.ok (), w.setPlayer pid { p with messages := p.messages ++ [firstTimeMsg sc.cls] },
        [Ev.firstTime sid pid]) := by
  simp [Scene.enter_first_time, Bind.bind, Act.bindF, Pure.pure, Act.pureF,
    emitEv, getSceneA, hs, run_push_msg _ hp]

theorem run_enter_base_first {sid pid : Nat} {w : World} {sc : Scene} {ms : GameMap}
    {p : Player}
    (hs : w.scenes sid = some sc) (hm : w.maps sc.map = some ms)
    (hp : w.players pid = some p) (hreg : dictGet ms.players p.name = some pid)
    (hns : p.scene ≠ some sid) :
    Scene.enter_base sid (EntRef.obj pid) w =
      (.ok (), w.setPlayer pid { p with scene := some sid, messages := p.messages ++ [firstTimeMsg sc.cls] }, [Ev.firstTime sid pid]) := by
  have h1 : (w.setPlayer pid { p with scene := some sid }).scenes sid = some sc := hs
  have h2 : (w.setPlayer pid { p with scene := some sid }).players pid =
      some { p with scene := some sid } := World.players_setPlayer_self ..
  simp only [Scene.enter_base, Bind.bind, Act.bindF, Pure.pure, Act.pureF,
    Act.run_getSceneA hs, Act.run_getPlayerA hp,
    run_map_player_obj hm hp hreg, Act.run_modPlayerA hp, hns, ne_eq,
    not_false_eq_true, if_true, run_enter_first_time h1 h2,
    World.setPlayer_setPlayer, List.nil_append]

theorem run_scene_enter_first {sid pid : Nat} {w : World} {sc : Scene} {ms : GameMap}
    {p : Player}
    (hs : w.scenes sid = some sc) (hm : w.maps sc.map = some ms)
    (hp : w.players pid = some p) (hreg : dictGet ms.players p.name = some pid)
    (hns : p.scene ≠ some sid)
    (hbear : sc.cls = SceneClass.bear → ∃ bv, dictGet sc.state "bear_moved" = some bv) :
    ∃ msgs, Scene.enter sid (EntRef.obj pid) w =
      (.ok (), w.setPlayer pid { p with scene := some sid, messages := p.messages ++ msgs }, [Ev.firstTime sid pid]) := by
  by_cases hcls : sc.cls = SceneClass.bear
  · obtain ⟨bv, hbv⟩ := hbear hcls
    have hw1s : (w.setPlayer pid { p with scene := some sid, messages := p.messages ++ [firstTimeMsg SceneClass.bear] }).scenes sid = some sc := hs
    have hw1m : (w.setPlayer pid { p with scene := some sid, messages := p.messages ++ [firstTimeMsg SceneClass.bear] }).maps sc.map = some ms := hm
    have hw1p : (w.setPlayer pid { p with scene := some sid, messages := p.messages ++ [firstTimeMsg SceneClass.bear] }).players pid = some { p with scene := some sid, messages := p.messages ++ [firstTimeMsg SceneClass.bear] } := World.players_setPlayer_self ..
    have hw1reg : dictGet ms.players (Player.name { p with scene := some sid, messages := p.messages ++ [firstTimeMsg SceneClass.bear] }) = some pid := hreg
    refine ⟨firstTimeMsg sc.cls :: [if bv then "Bears sits a few feet away from the door." else "Bears sits in front of a door."], ?_⟩
    cases bv <;>
      simp [Scene.enter, Bind.bind, Act.bindF, Pure.pure, Act.pureF,
        Act.run_getSceneA hs, hcls, run_enter_base_first hs hm hp hreg hns,
        run_map_player_obj hw1m hw1p hw1reg, Act.run_getSceneA hw1s, hbv,
        run_push_msg _ hw1p, World.setPlayer_setPlayer]
  · refine ⟨[firstTimeMsg sc.cls], ?_⟩
    cases hc : sc.cls <;> try exact absurd hc hcls
    all_goals
      simp [Scene.enter, Bind.bind, Act.bindF, Pure.pure, Act.pureF,
        Act.run_getSceneA hs, hc, run_enter_base_first hs hm hp hreg hns]

theorem run_enter_map_rest {pid mid sid : Nat} {w : World} {p : Player} {ms : GameMap}
    {sc : Scene} {sname : String}
    (hp : w.players pid = some p) (hns : p.scene ≠ some sid)
    (hm : w.maps mid = some ms) (hfree : dictGet ms.players p.name = none)
    (hsn : dictGet ms.scenes sname = some sid)
    (hs : w.scenes sid = some sc) (hscm : sc.map = mid)
    (hbear : sc.cls = SceneClass.bear → ∃ bv, dictGet sc.state "bear_moved" = some bv) :
    ∃ msgs, Player.enter_map_rest pid mid (some (EntRef.name sname)) w =
      (.ok (), (w.setMap mid { ms with players := dictSet ms.players p.name pid }).setPlayer pid { p with map := some mid, scene := some sid, messages := p.messages ++ msgs }, [Ev.firstTime sid pid]) := by
  have hA_m : (w.setPlayer pid { p with map := some mid }).maps mid = some ms := hm
  have hA_p : (w.setPlayer pid { p with map := some mid }).players pid =
      some { p with map := some mid } := World.players_setPlayer_self ..
  have hA_free : dictGet ms.players (Player.name { p with map := some mid }) = none := hfree
  have hadd := run_add_player_ok hA_m hA_p hA_free
  have hB_m : (((w.setMap mid { ms with players := dictSet ms.players p.name pid }).setPlayer
      pid { name := p.name, inv := p.inv, state := p.state, messages := p.messages ++ ["Welcome, player " ++ p.name ++ " to the map " ++ ms.name ++ "!"], map := some mid, scene := p.scene }).maps) mid =
      some { ms with players := dictSet ms.players p.name pid } := World.maps_setMap_self ..
  have hB_sn : dictGet (GameMap.scenes { ms with players := dictSet ms.players p.name pid })
      sname = some sid := hsn
  have hres := run_map_scene_name hB_m hB_sn
  have hB_s : (((w.setMap mid { ms with players := dictSet ms.players p.name pid }).setPlayer
      pid { name := p.name, inv := p.inv, state := p.state, messages := p.messages ++ ["Welcome, player " ++ p.name ++ " to the map " ++ ms.name ++ "!"], map := some mid, scene := p.scene }).scenes) sid = some sc := hs
  have hB_scm : (((w.setMap mid { ms with players := dictSet ms.players p.name pid }).setPlayer
      pid { name := p.name, inv := p.inv, state := p.state, messages := p.messages ++ ["Welcome, player " ++ p.name ++ " to the map " ++ ms.name ++ "!"], map := some mid, scene := p.scene }).maps) sc.map =
      some { ms with players := dictSet ms.players p.name pid } := by
    rw [hscm]
    exact World.maps_setMap_self ..
  have hB_p : (((w.setMap mid { ms with players := dictSet ms.players p.name pid }).setPlayer
      pid { name := p.name, inv := p.inv, state := p.state, messages := p.messages ++ ["Welcome, player " ++ p.name ++ " to the map " ++ ms.name ++ "!"], map := some mid, scene := p.scene }).players) pid =
      some { name := p.name, inv := p.inv, state := p.state, messages := p.messages ++ ["Welcome, player " ++ p.name ++ " to the map " ++ ms.name ++ "!"], map := some mid, scene := p.scene } :=
    World.players_setPlayer_self ..
  have hB_reg : dictGet (GameMap.players { ms with players := dictSet ms.players p.name pid })
      (Player.name { name := p.name, inv := p.inv, state := p.state, messages := p.messages ++ ["Welcome, player " ++ p.name ++ " to the map " ++ ms.name ++ "!"], map := some mid, scene := p.scene }) = some pid :=
    dictGet_dictSet_self ..
  have hB_ns : Player.scene { name := p.name, inv := p.inv, state := p.state, messages := p.messages ++ ["Welcome, player " ++ p.name ++ " to the map " ++ ms.name ++ "!"], map := some mid, scene := p.scene } ≠ some sid := hns
  obtain ⟨msgs1, henter⟩ :=
    run_scene_enter_first hB_s hB_scm hB_p hB_reg hB_ns hbear
  refine ⟨("Welcome, player " ++ p.name ++ " to the map " ++ ms.name ++ "!") :: msgs1, ?_⟩
  simp [Player.enter_map_rest, Player.default_scene_ref, Bind.bind, Act.bindF,
    Pure.pure, Act.pureF, Act.run_modPlayerA hp, hadd, hres, henter,
    World.setMap_setPlayer_comm, World.setPlayer_setPlayer]

theorem World.setMap_setMap (w : World) (mid : Nat) (m1 m2 : GameMap) :
    (w.setMap mid m1).setMap mid m2 = w.setMap mid m2 := by
  simp only [World.setMap]
  congr 1
  funext i
  by_cases h : i = mid <;> simp [h]

theorem run_enter_map_detached {pid mid sid : Nat} {w : World} {p : Player} {ms : GameMap}
    {sc : Scene} {sname : String}
    (hp : w.players pid = some p) (hmap : p.map = none) (hscene : p.scene = none)
    (hm : w.maps mid = some ms) (hfree : dictGet ms.players p.name = none)
    (hsn : dictGet ms.scenes sname = some sid)
    (hs : w.scenes sid = some sc) (hscm : sc.map = mid)
    (hbear : sc.cls = SceneClass.bear → ∃ bv, dictGet sc.state "bear_moved" = some bv) :
    ∃ msgs, Player.enter_map pid mid (some (EntRef.name sname)) w =
      (.ok (), (w.setMap mid { ms with players := dictSet ms.players p.name pid }).setPlayer pid { p with map := some mid, scene := some sid, messages := p.messages ++ msgs }, [Ev.firstTime sid pid]) := by
  obtain ⟨msgs, hrest⟩ :=
    run_enter_map_rest hp (by simp [hscene]) hm hfree hsn hs hscm hbear
  refine ⟨msgs, ?_⟩
  have hchain := Act.run_bind_ok _
    (fun _ => Player.enter_map_rest pid mid (some (EntRef.name sname)))
    (run_leave_map_unattached hp hmap) hrest
  simpa [Player.enter_map] using hchain

theorem run_enter_map_same {pid mid sid : Nat} {w : World} {p : Player} {ms : GameMap}
    {sc : Scene} {sname : String}
    (hp : w.players pid = some p) (hmap : p.map = some mid)
    (hm : w.maps mid = some ms) (hreg : dictGet ms.players p.name = some pid)
    (hnd : (ms.players.map Prod.fst).Nodup)
    (hsn : dictGet ms.scenes sname = some sid)
    (hs : w.scenes sid = some sc) (hscm : sc.map = mid)
    (hbear : sc.cls = SceneClass.bear → ∃ bv, dictGet sc.state "bear_moved" = some bv) :
    ∃ msgs, Player.enter_map pid mid (some (EntRef.name sname)) w =
      (.ok (), (w.setMap mid { ms with players := dictSet (dictDel ms.players p.name) p.name pid }).setPlayer pid { p with map := some mid, scene := some sid, messages := p.messages ++ msgs }, [Ev.firstTime sid pid]) := by
  have hleave := run_leave_map_attached hp hmap hm hreg
  have hw1p : ((w.setMap mid { ms with players := dictDel ms.players p.name }).setPlayer pid
      { p with map := none, scene := none }).players pid =
      some { p with map := none, scene := none } := World.players_setPlayer_self ..
  have hw1m : ((w.setMap mid { ms with players := dictDel ms.players p.name }).setPlayer pid
      { p with map := none, scene := none }).maps mid =
      some { ms with players := dictDel ms.players p.name } := World.maps_setMap_self ..
  have hw1free : dictGet (GameMap.players { ms with players := dictDel ms.players p.name })
      (Player.name { p with map := none, scene := none }) = none :=
    dictGet_dictDel_self ms.players p.name hnd
  have hw1sn : dictGet (GameMap.scenes { ms with players := dictDel ms.players p.name })
      sname = some sid := hsn
  have hw1s : ((w.setMap mid { ms with players := dictDel ms.players p.name }).setPlayer pid
      { p with map := none, scene := none }).scenes sid = some sc := hs
  obtain ⟨msgs, hrest⟩ :=
    run_enter_map_rest hw1p (by simp) hw1m hw1free hw1sn hw1s hscm hbear
  refine ⟨msgs, ?_⟩
  have hchain := Act.run_bind_ok _
    (fun _ => Player.enter_map_rest pid mid (some (EntRef.name sname))) hleave hrest
  simpa [Player.enter_map, World.setMap_setPlayer_comm, World.setMap_setMap,
    World.setPlayer_setPlayer] using hchain

theorem run_enter_map_rehome {pid mid mid0 sid : Nat} {w : World} {p : Player}
    {ms ms0 : GameMap} {sc : Scene} {sname : String}
    (hp : w.players pid = some p) (hmap : p.map = some mid0) (hne : mid0 ≠ mid)
    (hm0 : w.maps mid0 = some ms0) (hreg0 : dictGet ms0.players p.name = some pid)
    (hm : w.maps mid = some ms) (hfree : dictGet ms.players p.name = none)
    (hsn : dictGet ms.scenes sname = some sid)
    (hs : w.scenes sid = some sc) (hscm : sc.map = mid)
    (hbear : sc.cls = SceneClass.bear → ∃ bv, dictGet sc.state "bear_moved" = some bv) :
    ∃ msgs, Player.enter_map pid mid (some (EntRef.name sname)) w =
      (.ok (), ((w.setMap mid0 { ms0 with players := dictDel ms0.players p.name }).setMap mid { ms with players := dictSet ms.players p.name pid }).setPlayer pid { p with map := some mid, scene := some sid, messages := p.messages ++ msgs }, [Ev.firstTime sid pid]) := by
  have hleave := run_leave_map_attached hp hmap hm0 hreg0
  have hw1p : ((w.setMap mid0 { ms0 with players := dictDel ms0.players p.name }).setPlayer pid
      { p with map := none, scene := none }).players pid =
      some { p with map := none, scene := none } := World.players_setPlayer_self ..
  have hw1m : ((w.setMap mid0 { ms0 with players := dictDel ms0.players p.name }).setPlayer pid
      { p with map := none, scene := none }).maps mid = some ms := by
    simpa [World.maps_setMap_ne _ _ _ _ (fun h => hne h.symm)] using hm
  have hw1free : dictGet ms.players (Player.name { p with map := none, scene := none }) =
      none := hfree
  have hw1s : ((w.setMap mid0 { ms0 with players := dictDel ms0.players p.name }).setPlayer pid
      { p with map := none, scene := none }).scenes sid = some sc := hs
  obtain ⟨msgs, hrest⟩ :=
    run_enter_map_rest hw1p (by simp) hw1m hw1free hsn hw1s hscm hbear
  refine ⟨msgs, ?_⟩
  have hchain := Act.run_bind_ok _
    (fun _ => Player.enter_map_rest pid mid (some (EntRef.name sname))) hleave hrest
  simpa [Player.enter_map, World.setMap_setPlayer_comm, World.setPlayer_setPlayer]
    using hchain

/-! ## Trace predicates

Used to state that an operation never invokes an `action_*` handler: its
ghost trace is empty, or at least free of `Ev.action` events. -/

theorem Act.trace_bind {α β : Type} (x : Act α) (f : α → Act β) (w : World) :
    ((x >>= f) w).2.2 = (x w).2.2 ++ (match (x w).1 with
      | .ok a => (f a (x w).2.1).2.2
      | .error _ => []) := by
  change (Act.bindF x f w).2.2 = _
  rw [Act.bindF]
  rcases hx : x w with ⟨r, w1, t1⟩
  cases r <;> simp

/-- The run records no trace events at all, from any world. -/
def silentRun {α : Type} (x : Act α) : Prop := ∀ w, (x w).2.2 = []

/-- The run records no `Ev.action` event, from any world. -/
def actionFreeRun {α : Type} (x : Act α) : Prop :=
  ∀ w e, e ∈ (x w).2.2 → e.isAction = false

theorem silentRun_bind {α β : Type} {x : Act α} {f : α → Act β}
    (h1 : silentRun x) (h2 : ∀ a, silentRun (f a)) : silentRun (x >>= f) := by
  intro w
  rw [Act.trace_bind, h1 w]
  cases hx : (x w).1 with
  | error e => simp [hx]
  | ok a =>
      simp only [hx, List.nil_append]
      exact h2 a _

theorem silentRun_pure {α : Type} (a : α) : silentRun (pure a : Act α) := fun _ => rfl

theorem silentRun_throwE {α : Type} (e : Err) : silentRun (throwE e : Act α) := fun _ => rfl

theorem silentRun_getPlayerA (pid : Nat) : silentRun (getPlayerA pid) := by
  intro w
  unfold getPlayerA
  cases w.players pid <;> rfl

theorem silentRun_getSceneA (sid : Nat) : silentRun (getSceneA sid) := by
  intro w
  unfold getSceneA
  cases w.scenes sid <;> rfl

theorem silentRun_getMapA (mid : Nat) : silentRun (getMapA mid) := by
  intro w
  unfold getMapA
  cases w.maps mid <;> rfl

theorem silentRun_modPlayerA (pid : Nat) (f : Player → Player) :
    silentRun (modPlayerA pid f) := by
  intro w
  unfold modPlayerA
  cases w.players pid <;> rfl

theorem silentRun_modMapA (mid : Nat) (f : GameMap → GameMap) :
    silentRun (modMapA mid f) := by
  intro w
  unfold modMapA
  cases w.maps mid <;> rfl

theorem silentRun_push_msg (pid : Nat) (msg : String) :
    silentRun (Player.push_msg pid msg) :=
  silentRun_modPlayerA pid _

theorem silentRun_entityNameA (k : EntKind) (i : Nat) : silentRun (entityNameA k i) := by
  cases k
  · exact silentRun_bind (silentRun_getSceneA i) fun s => silentRun_pure s.name
  · exact silentRun_bind (silentRun_getPlayerA i) fun p => silentRun_pure p.name

theorem silentRun_get_entity (k : EntKind) (r : EntRef) (d : List (String × Nat))
    (caption : String) : silentRun (GameMap.get_entity k r d caption) := by
  cases r with
  | name s =>
      show silentRun (match dictGet d s with
        | some i => (pure i : Act Nat)
        | none => throwE (Err.keyError s))
      split
      · exact silentRun_pure _
      · exact silentRun_throwE _
  | obj i =>
      show silentRun (entityNameA k i >>= fun n =>
        match dictGet d n with
        | none => throwE (Err.keyError n)
        | some j => if j = i then pure i else throwE (Err.identityMismatch caption n))
      refine silentRun_bind (silentRun_entityNameA k i) fun n => ?_
      split
      · exact silentRun_throwE _
      · split
        · exact silentRun_pure _
        · exact silentRun_throwE _

theorem silentRun_map_scene (mid : Nat) (r : EntRef) : silentRun (GameMap.scene mid r) :=
  silentRun_bind (silentRun_getMapA mid) fun _m => silentRun_get_entity _ _ _ _

theorem silentRun_map_player (mid : Nat) (r : EntRef) : silentRun (GameMap.player mid r) :=
  silentRun_bind (silentRun_getMapA mid) fun _m => silentRun_get_entity _ _ _ _

theorem silentRun_something_changed (pid : Nat) :
    silentRun (NormalScene.something_changed pid) := by
  refine silentRun_bind (silentRun_getPlayerA pid) fun p => ?_
  split
  · exact silentRun_throwE _
  · split
    · exact silentRun_bind (silentRun_modPlayerA pid _) fun _ =>
        silentRun_push_msg pid _
    · exact silentRun_pure _

theorem actionFreeRun_of_silent {α : Type} {x : Act α} (h : silentRun x) :
    actionFreeRun x := by
  intro w e he
  rw [h w] at he
  exact absurd he (List.not_mem_nil e)

theorem actionFreeRun_bind {α β : Type} {x : Act α} {f : α → Act β}
    (h1 : actionFreeRun x) (h2 : ∀ a, actionFreeRun (f a)) :
    actionFreeRun (x >>= f) := by
  intro w e he
  rw [Act.trace_bind] at he
  rcases List.mem_append.mp he with h | h
  · exact h1 w e h
  · cases hx : (x w).1 with
    | ok a =>
        rw [hx] at h
        exact h2 a _ e h
    | error er =>
        rw [hx] at h
        exact absurd h (List.not_mem_nil e)

theorem actionFreeRun_emit {ev : Ev} (h : ev.isAction = false) :
    actionFreeRun (emitEv ev) := by
  intro w e he
  rcases List.mem_singleton.mp he with rfl
  exact h

theorem actionFreeRun_enter_first_time (sid pid : Nat) :
    actionFreeRun (Scene.enter_first_time sid pid) := by
  refine actionFreeRun_bind (actionFreeRun_emit rfl) fun _ => ?_
  exact actionFreeRun_of_silent (silentRun_bind (silentRun_getSceneA sid) fun sc =>
    silentRun_push_msg pid _)

theorem actionFreeRun_enter_again (sid pid : Nat) :
    actionFreeRun (Scene.enter_again sid pid) := by
  refine actionFreeRun_bind (actionFreeRun_emit rfl) fun _ => ?_
  exact actionFreeRun_of_silent (silentRun_bind (silentRun_getSceneA sid) fun sc =>
    silentRun_push_msg pid _)

theorem actionFreeRun_enter_base (sid : Nat) (pref : EntRef) :
    actionFreeRun (Scene.enter_base sid pref) := by
  refine actionFreeRun_bind (actionFreeRun_of_silent (silentRun_getSceneA sid)) fun sc => ?_
  refine actionFreeRun_bind
    (actionFreeRun_of_silent (silentRun_map_player sc.map pref)) fun pid => ?_
  refine actionFreeRun_bind
    (actionFreeRun_of_silent (silentRun_getPlayerA pid)) fun p => ?_
  split
  · exact actionFreeRun_bind
      (actionFreeRun_of_silent (silentRun_modPlayerA pid _)) fun _ =>
      actionFreeRun_enter_first_time sid pid
  · exact actionFreeRun_enter_again sid pid

theorem actionFreeRun_scene_enter (sid : Nat) (pref : EntRef) :
    actionFreeRun (Scene.enter sid pref) := by
  refine actionFreeRun_bind (actionFreeRun_of_silent (silentRun_getSceneA sid)) fun sc => ?_
  cases hc : sc.cls
  case bear =>
      refine actionFreeRun_bind (actionFreeRun_enter_base sid pref) fun _ => ?_
      refine actionFreeRun_bind
        (actionFreeRun_of_silent (silentRun_map_player sc.map pref)) fun pid => ?_
      refine actionFreeRun_bind
        (actionFreeRun_of_silent (silentRun_getSceneA sid)) fun sc2 => ?_
      split
      · exact actionFreeRun_of_silent (silentRun_throwE _)
      · exact actionFreeRun_of_silent (silentRun_push_msg pid _)
      · exact actionFreeRun_of_silent (silentRun_push_msg pid _)
  all_goals exact actionFreeRun_enter_base sid pref

/-- Splitting the run of an `action_*` handler: the trace starts with the
handler invocation event and the remainder is free of handler events. -/
theorem emit_cons_run {α : Type} (ev : Ev) (K : Unit → Act α)
    (hK : actionFreeRun (K ())) (w : World) :
    ∃ r w2 t, (emitEv ev >>= K) w = (r, w2, ev :: t) ∧ ∀ e ∈ t, e.isAction = false := by
  rcases hk : K () w with ⟨r, w2, t⟩
  refine ⟨r, w2, t, ?_, fun e he => hK w e (by rw [hk]; exact he)⟩
  show Act.bindF _ _ _ = _
  rw [Act.bindF]
  simp only [Act.run_emitEv, hk, List.singleton_append]

/-! ## Claims -/

/-- Claim C3: for every player, map, and scene reference valid in the map,
calling `enter_map` twice in immediate succession with the same map and scene
triggers the first-time entry hook on both calls and never the repeat hook:
the ghost trace of the two calls is exactly two `firstTime` events, because
`leave_map` clears the current-scene pointer before `Scene.enter` compares it
to the target.  The attachment hypothesis covers the three well-formed
starting states: detached, already in the target map, or in another map. -/
theorem claim_C3 {pid mid sid : Nat} {w : World} {p : Player} {ms : GameMap} {sc : Scene}
    {sname : String}
    (hp : w.players pid = some p) (hm : w.maps mid = some ms)
    (hnd : (ms.players.map Prod.fst).Nodup)
    (hsn : dictGet ms.scenes sname = some sid) (hs : w.scenes sid = some sc)
    (hscm : sc.map = mid)
    (hbear : sc.cls = SceneClass.bear → ∃ bv, dictGet sc.state "bear_moved" = some bv)
    (hattach :
      (p.map = none ∧ p.scene = none ∧ dictGet ms.players p.name = none) ∨
      (p.map = some mid ∧ dictGet ms.players p.name = some pid) ∨
      (∃ mid0 ms0, p.map = some mid0 ∧ mid0 ≠ mid ∧ w.maps mid0 = some ms0 ∧
        dictGet ms0.players p.name = some pid ∧ dictGet ms.players p.name = none)) :
    ∃ w2, (Player.enter_map pid mid (some (EntRef.name sname)) >>= fun _ =>
        Player.enter_map pid mid (some (EntRef.name sname))) w =
      (.ok (), w2, [Ev.firstTime sid pid, Ev.firstTime sid pid]) := by
  rcases hattach with ⟨hmap, hscene, hfree⟩ | ⟨hmap, hreg⟩ |
    ⟨mid0, ms0, hmap, hne, hm0, hreg0, hfree⟩
  · obtain ⟨msgs1, hc1⟩ := run_enter_map_detached hp hmap hscene hm hfree hsn hs hscm hbear
    have hp2 : ((w.setMap mid { ms with players := dictSet ms.players p.name pid }).setPlayer pid { p with map := some mid, scene := some sid, messages := p.messages ++ msgs1 }).players pid = some { p with map := some mid, scene := some sid, messages := p.messages ++ msgs1 } := World.players_setPlayer_self ..
    have hm2 : ((w.setMap mid { ms with players := dictSet ms.players p.name pid }).setPlayer pid { p with map := some mid, scene := some sid, messages := p.messages ++ msgs1 }).maps mid = some { ms with players := dictSet ms.players p.name pid } := World.maps_setMap_self ..
    have hreg2 : dictGet (GameMap.players { ms with players := dictSet ms.players p.name pid }) (Player.name { p with map := some mid, scene := some sid, messages := p.messages ++ msgs1 }) = some pid := dictGet_dictSet_self ..
    have hnd2 : ((GameMap.players { ms with players := dictSet ms.players p.name pid }).map Prod.fst).Nodup := nodup_keys_dictSet _ _ _ hnd
    have hsn2 : dictGet (GameMap.scenes { ms with players := dictSet ms.players p.name pid }) sname = some sid := hsn
    have hs2 : ((w.setMap mid { ms with players := dictSet ms.players p.name pid }).setPlayer pid { p with map := some mid, scene := some sid, messages := p.messages ++ msgs1 }).scenes sid = some sc := hs
    obtain ⟨msgs2, hc2⟩ := run_enter_map_same hp2 rfl hm2 hreg2 hnd2 hsn2 hs2 hscm hbear
    have hchain := Act.run_bind_ok _
      (fun _ => Player.enter_map pid mid (some (EntRef.name sname))) hc1 hc2
    exact ⟨_, by simpa using hchain⟩
  · obtain ⟨msgs1, hc1⟩ := run_enter_map_same hp hmap hm hreg hnd hsn hs hscm hbear
    have hp2 : ((w.setMap mid { ms with players := dictSet (dictDel ms.players p.name) p.name pid }).setPlayer pid { p with map := some mid, scene := some sid, messages := p.messages ++ msgs1 }).players pid = some { p with map := some mid, scene := some sid, messages := p.messages ++ msgs1 } := World.players_setPlayer_self ..
    have hm2 : ((w.setMap mid { ms with players := dictSet (dictDel ms.players p.name) p.name pid }).setPlayer pid { p with map := some mid, scene := some sid, messages := p.messages ++ msgs1 }).maps mid = some { ms with players := dictSet (dictDel ms.players p.name) p.name pid } := World.maps_setMap_self ..
    have hreg2 : dictGet (GameMap.players { ms with players := dictSet (dictDel ms.players p.name) p.name pid }) (Player.name { p with map := some mid, scene := some sid, messages := p.messages ++ msgs1 }) = some pid := dictGet_dictSet_self ..
    have hnd2 : ((GameMap.players { ms with players := dictSet (dictDel ms.players p.name) p.name pid }).map Prod.fst).Nodup := nodup_keys_dictSet _ _ _ (nodup_keys_dictDel _ _ hnd)
    have hsn2 : dictGet (GameMap.scenes { ms with players := dictSet (dictDel ms.players p.name) p.name pid }) sname = some sid := hsn
    have hs2 : ((w.setMap mid { ms with players := dictSet (dictDel ms.players p.name) p.name pid }).setPlayer pid { p with map := some mid, scene := some sid, messages := p.messages ++ msgs1 }).scenes sid = some sc := hs
    obtain ⟨msgs2, hc2⟩ := run_enter_map_same hp2 rfl hm2 hreg2 hnd2 hsn2 hs2 hscm hbear
    have hchain := Act.run_bind_ok _
      (fun _ => Player.enter_map pid mid (some (EntRef.name sname))) hc1 hc2
    exact ⟨_, by simpa using hchain⟩
  · obtain ⟨msgs1, hc1⟩ :=
      run_enter_map_rehome hp hmap hne hm0 hreg0 hm hfree hsn hs hscm hbear
    have hp2 : (((w.setMap mid0 { ms0 with players := dictDel ms0.players p.name }).setMap mid { ms with players := dictSet ms.players p.name pid }).setPlayer pid { p with map := some mid, scene := some sid, messages := p.messages ++ msgs1 }).players pid = some { p with map := some mid, scene := some sid, messages := p.messages ++ msgs1 } := World.players_setPlayer_self ..
    have hm2 : (((w.setMap mid0 { ms0 with players := dictDel ms0.players p.name }).setMap mid { ms with players := dictSet ms.players p.name pid }).setPlayer pid { p with map := some mid, scene := some sid, messages := p.messages ++ msgs1 }).maps mid = some { ms with players := dictSet ms.players p.name pid } := World.maps_setMap_self ..
    have hreg2 : dictGet (GameMap.players { ms with players := dictSet ms.players p.name pid }) (Player.name { p with map := some mid, scene := some sid, messages := p.messages ++ msgs1 }) = some pid := dictGet_dictSet_self ..
    have hnd2 : ((GameMap.players { ms with players := dictSet ms.players p.name pid }).map Prod.fst).Nodup := nodup_keys_dictSet _ _ _ hnd
    have hsn2 : dictGet (GameMap.scenes { ms with players := dictSet ms.players p.name pid }) sname = some sid := hsn
    have hs2 : (((w.setMap mid0 { ms0 with players := dictDel ms0.players p.name }).setMap mid { ms with players := dictSet ms.players p.name pid }).setPlayer pid { p with map := some mid, scene := some sid, messages := p.messages ++ msgs1 }).scenes sid = some sc := hs
    obtain ⟨msgs2, hc2⟩ := run_enter_map_same hp2 rfl hm2 hreg2 hnd2 hsn2 hs2 hscm hbear
    have hchain := Act.run_bind_ok _
      (fun _ => Player.enter_map pid mid (some (EntRef.name sname))) hc1 hc2
    exact ⟨_, by simpa using hchain⟩

/-- Concrete world for the C3 witness: one map holding one base scene and a
detached player named al. -/
def worldC3 : World :=
  { players := fun i => if i = 0 then some { name := "al", inv := [], state := [], messages := [], map := none, scene := none } else none
  , scenes := fun i => if i = 0 then some { cls := SceneClass.scene, name := "scene", map := 0, state := [] } else none
  , maps := fun i => if i = 0 then some { name := "M", starting_scene := some "scene", scenes := [("scene", 0)], players := [] } else none }

/-- Witness for claim C3 at the concrete world `worldC3`. -/
theorem claim_C3_witness :
    ∃ w2, (Player.enter_map 0 0 (some (EntRef.name "scene")) >>= fun _ =>
        Player.enter_map 0 0 (some (EntRef.name "scene"))) worldC3 =
      (.ok (), w2, [Ev.firstTime 0 0, Ev.firstTime 0 0]) :=
  @claim_C3 0 0 0 worldC3
    { name := "al", inv := [], state := [], messages := [], map := none, scene := none }
    { name := "M", starting_scene := some "scene", scenes := [("scene", 0)], players := [] }
    { cls := SceneClass.scene, name := "scene", map := 0, state := [] }
    "scene" rfl rfl (by decide) (by decide) rfl rfl
    (fun h => absurd h (by decide)) (Or.inl ⟨rfl, rfl, rfl⟩)

/-- Claim C9: the base `Scene.do` called with `game_on` already set returns
that boolean unchanged and leaves the world untouched: no message is queued
and no scene or player state changes (the only trace event is the ghost
marker that the base method ran). -/
theorem claim_C9 (sid : Nat) (player_ref : EntRef) (input_str : String) (b : Bool)
    (w : World) :
    Scene.do_ sid player_ref input_str (some b) w = (.ok b, w, [Ev.baseDo sid]) := rfl

theorem action_right_run (sid pid : Nat) (w : World) :
    ∃ r w2 t, FirstScene.action_right sid pid w =
      (r, w2, Ev.action "action_right" sid pid :: t) ∧ ∀ e ∈ t, e.isAction = false := by
  refine emit_cons_run _ _ ?_ w
  exact actionFreeRun_bind (actionFreeRun_of_silent (silentRun_push_msg pid _)) fun _ =>
    actionFreeRun_bind (actionFreeRun_of_silent (silentRun_something_changed pid)) fun _ =>
    actionFreeRun_bind (actionFreeRun_of_silent (silentRun_getSceneA sid)) fun sc =>
    actionFreeRun_bind (actionFreeRun_of_silent (silentRun_map_scene sc.map _)) fun cid =>
    actionFreeRun_bind (actionFreeRun_scene_enter cid _) fun _ =>
    actionFreeRun_of_silent (silentRun_pure true)

theorem action_left_run (sid pid : Nat) (w : World) :
    ∃ r w2 t, FirstScene.action_left sid pid w =
      (r, w2, Ev.action "action_left" sid pid :: t) ∧ ∀ e ∈ t, e.isAction = false := by
  refine emit_cons_run _ _ ?_ w
  exact actionFreeRun_bind (actionFreeRun_of_silent (silentRun_push_msg pid _)) fun _ =>
    actionFreeRun_bind (actionFreeRun_of_silent (silentRun_something_changed pid)) fun _ =>
    actionFreeRun_bind (actionFreeRun_of_silent (silentRun_getSceneA sid)) fun sc =>
    actionFreeRun_bind (actionFreeRun_of_silent (silentRun_map_scene sc.map _)) fun bid =>
    actionFreeRun_bind (actionFreeRun_scene_enter bid _) fun _ =>
    actionFreeRun_of_silent (silentRun_pure true)

/-- Claim C1: the ordered dispatch of `FirstScene.do`.  Input right invokes
`action_right` and nothing after it invokes any other handler (so never
`action_left`); input LEFT matches case-insensitively and invokes
`action_left`; input leftish full-matches no pattern in the list — the
substring match does not count — and control falls through to the parent
`Scene.do` (the `baseDo` trace marker), whose `action_cant_parse` override
then evaluates the unbound name `random`. -/
theorem claim_C1 {sid pid : Nat} {w : World} {sc : Scene} {ms : GameMap} {p : Player}
    (hs : w.scenes sid = some sc) (hcls : sc.cls = SceneClass.first)
    (hm : w.maps sc.map = some ms) (hp : w.players pid = some p)
    (hreg : dictGet ms.players p.name = some pid) :
    (∃ t, (FirstScene.do_ sid (EntRef.obj pid) "right" none w).2.2 =
        Ev.action "action_right" sid pid :: t ∧ ∀ e ∈ t, e.isAction = false) ∧
    (∃ t, (FirstScene.do_ sid (EntRef.obj pid) "LEFT" none w).2.2 =
        Ev.action "action_left" sid pid :: t ∧ ∀ e ∈ t, e.isAction = false) ∧
    FirstScene.do_ sid (EntRef.obj pid) "leftish" none w =
      (.error (Err.nameError "random"), w,
        [Ev.baseDo sid, Ev.action "action_cant_parse" sid pid]) := by
  refine ⟨?_, ?_, ?_⟩
  · obtain ⟨r, w2, t, hrun, hfree⟩ := action_right_run sid pid w
    refine ⟨t, ?_, hfree⟩
    simp [FirstScene.do_, Bind.bind, Act.bindF, Pure.pure, Act.pureF,
      Act.run_getSceneA hs, run_map_player_obj hm hp hreg,
      (by decide : RE.fullmatch leftRE "right" = false),
      (by decide : RE.fullmatch rightRE "right" = true), hrun]
  · obtain ⟨r, w2, t, hrun, hfree⟩ := action_left_run sid pid w
    refine ⟨t, ?_, hfree⟩
    simp [FirstScene.do_, Bind.bind, Act.bindF, Pure.pure, Act.pureF,
      Act.run_getSceneA hs, run_map_player_obj hm hp hreg,
      (by decide : RE.fullmatch leftRE "LEFT" = true), hrun]
  · simp [FirstScene.do_, Scene.do_, Scene.action_cant_parse, Bind.bind, Act.bindF,
      Pure.pure, Act.pureF, emitEv, Act.run_getSceneA hs,
      run_map_player_obj hm hp hreg, hcls,
      (by decide : RE.fullmatch leftRE "leftish" = false),
      (by decide : RE.fullmatch rightRE "leftish" = false),
      (by decide : RE.fullmatch centerRE "leftish" = false),
      (by decide : RE.fullmatch exitQuitRE "leftish" = false)]

/-- Concrete world for the C1 witness: the sample map with the first scene
(id 1) and a registered player jo (id 0) standing in it. -/
def worldC1 : World :=
  { players := fun i => if i = 0 then some { name := "jo", inv := [], state := [("boredom", 0)], messages := [], map := some 0, scene := some 1 } else none
  , scenes := fun i =>
      if i = 1 then some { cls := SceneClass.first, name := "first", map := 0, state := [] }
      else if i = 2 then some { cls := SceneClass.cthulhu, name := "cthulhu", map := 0, state := [] }
      else if i = 4 then some { cls := SceneClass.bear, name := "bear", map := 0, state := [("bear_moved", false)] }
      else none
  , maps := fun i => if i = 0 then some { name := "M", starting_scene := some "first", scenes := [("first", 1), ("cthulhu", 2), ("bear", 4)], players := [("jo", 0)] } else none }

/-- Witness for claim C1 at the concrete world `worldC1`. -/
theorem claim_C1_witness :
    (∃ t, (FirstScene.do_ 1 (EntRef.obj 0) "right" none worldC1).2.2 =
        Ev.action "action_right" 1 0 :: t ∧ ∀ e ∈ t, e.isAction = false) ∧
    (∃ t, (FirstScene.do_ 1 (EntRef.obj 0) "LEFT" none worldC1).2.2 =
        Ev.action "action_left" 1 0 :: t ∧ ∀ e ∈ t, e.isAction = false) ∧
    FirstScene.do_ 1 (EntRef.obj 0) "leftish" none worldC1 =
      (.error (Err.nameError "random"), worldC1,
        [Ev.baseDo 1, Ev.action "action_cant_parse" 1 0]) :=
  @claim_C1 1 0 worldC1
    { cls := SceneClass.first, name := "first", map := 0, state := [] }
    { name := "M", starting_scene := some "first", scenes := [("first", 1), ("cthulhu", 2), ("bear", 4)], players := [("jo", 0)] }
    { name := "jo", inv := [], state := [("boredom", 0)], messages := [], map := some 0, scene := some 1 }
    rfl rfl rfl rfl (by decide)

/-- Concrete world for C2: one base-class scene (id 0) in a map with one
registered player jo (id 0). -/
def worldC2 : World :=
  { players := fun i => if i = 0 then some { name := "jo", inv := [], state := [], messages := [], map := some 0, scene := some 0 } else none
  , scenes := fun i => if i = 0 then some { cls := SceneClass.scene, name := "scene", map := 0, state := [] } else none
  , maps := fun i => if i = 0 then some { name := "M", starting_scene := some "scene", scenes := [("scene", 0)], players := [("jo", 0)] } else none }

/-- Counterexample for claim C2 as frozen: the input exit game is not one of
the three strings the claim enumerates for the exit pattern (even case
insensitively), yet the base `Scene.do` queues the farewell Goodbye! rather
than the claimed clarification message.  The exit regex also accepts exit
followed by whitespace and game. -/
theorem claim_C2_cex :
    RE.fullmatch (RE.strLit "exit") "exit game" = false ∧
    RE.fullmatch (RE.strLit "quit") "exit game" = false ∧
    RE.fullmatch (RE.strLit "quit game") "exit game" = false ∧
    Scene.do_ 0 (EntRef.obj 0) "exit game" none worldC2 =
      (.ok false,
        worldC2.setPlayer 0 { name := "jo", inv := [], state := [], messages := ["Goodbye!"], map := some 0, scene := some 0 },
        [Ev.baseDo 0, Ev.action "action_exit" 0 0]) :=
  ⟨by decide, by decide, by decide, rfl⟩

/-- Claim C2 as amended: for the base `Scene.do` with `game_on = None` and a
registered player, an input that full-matches the exit pattern — exit or
quit, optionally followed by whitespace and game, case-insensitively —
queues the farewell and returns `False`; every other input queues the
clarification message and also returns `False`. -/
theorem claim_C2 {sid pid : Nat} {w : World} {sc : Scene} {ms : GameMap} {p : Player}
    (hs : w.scenes sid = some sc) (hcls : sc.cls = SceneClass.scene)
    (hm : w.maps sc.map = some ms) (hp : w.players pid = some p)
    (hreg : dictGet ms.players p.name = some pid) (input : String) :
    Scene.do_ sid (EntRef.obj pid) input none w =
      (.ok false,
       w.setPlayer pid { p with messages := p.messages ++ [if RE.fullmatch exitQuitRE input then "Goodbye!" else "I don\x27t understand that."] },
       [Ev.baseDo sid,
        Ev.action (if RE.fullmatch exitQuitRE input then "action_exit" else "action_cant_parse") sid pid]) := by
  by_cases hfm : RE.fullmatch exitQuitRE input
  · simp [Scene.do_, Scene.action_exit, Bind.bind, Act.bindF, Pure.pure, Act.pureF,
      Act.run_getSceneA hs, run_map_player_obj hm hp hreg, hfm,
      run_push_msg _ hp, emitEv]
  · simp [Scene.do_, Scene.action_cant_parse, Bind.bind, Act.bindF, Pure.pure, Act.pureF,
      Act.run_getSceneA hs, run_map_player_obj hm hp hreg, hfm, hcls,
      run_push_msg _ hp, emitEv]

/-- Witness for the amended claim C2 at `worldC2` on the unrecognized input
hello. -/
theorem claim_C2_witness :
    Scene.do_ 0 (EntRef.obj 0) "hello" none worldC2 =
      (.ok false,
       worldC2.setPlayer 0 { name := "jo", inv := [], state := [], messages := [if RE.fullmatch exitQuitRE "hello" then "Goodbye!" else "I don\x27t understand that."], map := some 0, scene := some 0 },
       [Ev.baseDo 0,
        Ev.action (if RE.fullmatch exitQuitRE "hello" then "action_exit" else "action_cant_parse") 0 0]) :=
  @claim_C2 0 0 worldC2
    { cls := SceneClass.scene, name := "scene", map := 0, state := [] }
    { name := "M", starting_scene := some "scene", scenes := [("scene", 0)], players := [("jo", 0)] }
    { name := "jo", inv := [], state := [], messages := [], map := some 0, scene := some 0 }
    rfl rfl rfl rfl (by decide) "hello"

/-- Claim C5: the registry add operation.  A name held by a different entity
fails with the duplicate-name error; re-adding the identical entity fails
with the already-registered error; a fresh name is inserted.  The two map
methods built on it leave the world unchanged whenever they fail. -/
theorem claim_C5 (d : List (String × Nat)) (nm : String) (i : Nat) (caption : String) :
    (dictGet d nm = some i →
      GameMap.add_entity nm i d caption = .error (.alreadyRegistered caption nm)) ∧
    (∀ j, dictGet d nm = some j → j ≠ i →
      GameMap.add_entity nm i d caption = .error (.duplicateName caption nm)) ∧
    (dictGet d nm = none →
      GameMap.add_entity nm i d caption = .ok (dictSet d nm i) ∧
      dictGet (dictSet d nm i) nm = some i) ∧
    (∀ mid sid w r w2 tr, GameMap.add_scene mid sid w = (r, w2, tr) →
      (∃ e, r = Except.error e) → w2 = w) ∧
    (∀ mid pid w r w2 tr, GameMap.add_player mid pid w = (r, w2, tr) →
      (∃ e, r = Except.error e) → w2 = w) := by
  refine ⟨?_, ?_, ?_, ?_, ?_⟩
  · intro h
    simp [GameMap.add_entity, h]
  · intro j h hne
    simp [GameMap.add_entity, h, hne]
  · intro h
    exact ⟨by simp [GameMap.add_entity, h], dictGet_dictSet_self d nm i⟩
  · rintro mid sid w r w2 tr heq ⟨e, rfl⟩
    cases hm : w.maps mid with
    | none =>
        simp [GameMap.add_scene, Bind.bind, Act.bindF, getMapA, hm] at heq
        exact heq.2.1.symm
    | some m =>
        cases hsX : w.scenes sid with
        | none =>
            simp [GameMap.add_scene, Bind.bind, Act.bindF, getMapA, getSceneA,
              hm, hsX] at heq
            exact heq.2.1.symm
        | some sc =>
            cases hadd : GameMap.add_entity sc.name sid m.scenes "scene" with
            | ok d2 =>
                simp [GameMap.add_scene, Bind.bind, Act.bindF, getMapA, getSceneA,
                  modMapA, hm, hsX, hadd] at heq
            | error e2 =>
                simp [GameMap.add_scene, Bind.bind, Act.bindF, getMapA, getSceneA,
                  throwE, hm, hsX, hadd] at heq
                exact heq.2.1.symm
  · rintro mid pid w r w2 tr heq ⟨e, rfl⟩
    cases hm : w.maps mid with
    | none =>
        simp [GameMap.add_player, Bind.bind, Act.bindF, getMapA, hm] at heq
        exact heq.2.1.symm
    | some m =>
        cases hpX : w.players pid with
        | none =>
            simp [GameMap.add_player, Bind.bind, Act.bindF, getMapA, getPlayerA,
              hm, hpX] at heq
            exact heq.2.1.symm
        | some p =>
            cases hadd : GameMap.add_entity p.name pid m.players "player" with
            | ok d2 =>
                simp [GameMap.add_player, Bind.bind, Act.bindF, getMapA, getPlayerA,
                  modMapA, Player.push_msg, modPlayerA, hm, hpX, hadd] at heq
            | error e2 =>
                simp [GameMap.add_player, Bind.bind, Act.bindF, getMapA, getPlayerA,
                  throwE, hm, hpX, hadd] at heq
                exact heq.2.1.symm

/-- Concrete world for the C5 witness: a map whose scene registry already
binds the name s to scene 5, and a different scene 0 also named s. -/
def worldC5 : World :=
  { players := fun _ => none
  , scenes := fun i =>
      if i = 0 then some { cls := SceneClass.scene, name := "s", map := 0, state := [] }
      else if i = 5 then some { cls := SceneClass.scene, name := "s", map := 0, state := [] }
      else none
  , maps := fun i => if i = 0 then some { name := "M", starting_scene := none, scenes := [("s", 5)], players := [] } else none }

/-- Witness for claim C5 on concrete registries, including one failing
`add_scene` call shown to leave the world unchanged. -/
theorem claim_C5_witness :
    GameMap.add_entity "a" 1 [("a", 1)] "scene" = .error (.alreadyRegistered "scene" "a") ∧
    GameMap.add_entity "a" 2 [("a", 1)] "scene" = .error (.duplicateName "scene" "a") ∧
    (GameMap.add_entity "b" 2 [("a", 1)] "scene" = .ok (dictSet [("a", 1)] "b" 2) ∧
      dictGet (dictSet [("a", 1)] "b" 2) "b" = some 2) ∧
    (GameMap.add_scene 0 0 worldC5).2.1 = worldC5 :=
  ⟨(claim_C5 [("a", 1)] "a" 1 "scene").1 (by decide),
   (claim_C5 [("a", 1)] "a" 2 "scene").2.1 1 (by decide) (by decide),
   (claim_C5 [("a", 1)] "b" 2 "scene").2.2.1 (by decide),
   (claim_C5 [] "" 0 "scene").2.2.2.1 0 0 worldC5
     (GameMap.add_scene 0 0 worldC5).1 (GameMap.add_scene 0 0 worldC5).2.1
     (GameMap.add_scene 0 0 worldC5).2.2 rfl
     ⟨Err.duplicateName "scene" "s", rfl⟩⟩

/-- Claim C6: the registry lookup.  After a successful add of entity `i`
under its name, resolving by name returns `i` and resolving by the entity
itself returns `i`; an absent name fails with the not-found error; an entity
reference whose name slot holds a different object fails with the identity
mismatch error. -/
theorem claim_C6 {w : World} (k : EntKind) (caption : String) (d : List (String × Nat))
    (nm : String) (i : Nat) (hname : entityNameA k i w = (.ok nm, w, [])) :
    (∀ d2, GameMap.add_entity nm i d caption = .ok d2 →
      GameMap.get_entity k (EntRef.name nm) d2 caption w = (.ok i, w, []) ∧
      GameMap.get_entity k (EntRef.obj i) d2 caption w = (.ok i, w, [])) ∧
    (dictGet d nm = none →
      GameMap.get_entity k (EntRef.name nm) d caption w = (.error (.keyError nm), w, [])) ∧
    (∀ j, dictGet d nm = some j → j ≠ i →
      GameMap.get_entity k (EntRef.obj i) d caption w =
        (.error (.identityMismatch caption nm), w, [])) := by
  refine ⟨?_, ?_, ?_⟩
  · intro d2 hadd
    have hfree : dictGet d nm = none := by
      cases h : dictGet d nm with
      | none => rfl
      | some j =>
          by_cases hj : j = i <;> simp [GameMap.add_entity, h, hj] at hadd
    have hd2 : d2 = dictSet d nm i := by
      simp [GameMap.add_entity, hfree] at hadd
      exact hadd.symm
    subst hd2
    constructor
    · simp [GameMap.get_entity, dictGet_dictSet_self]
    · simp [GameMap.get_entity, Bind.bind, Act.bindF, hname, dictGet_dictSet_self]
  · intro h
    simp [GameMap.get_entity, h]
  · intro j h hne
    simp [GameMap.get_entity, Bind.bind, Act.bindF, hname, h, hne]

/-- Concrete world for the C6 witness: scene 7 named s, scene 9 named t. -/
def worldC6 : World :=
  { players := fun _ => none
  , scenes := fun i =>
      if i = 7 then some { cls := SceneClass.scene, name := "s", map := 0, state := [] }
      else if i = 9 then some { cls := SceneClass.scene, name := "t", map := 0, state := [] }
      else none
  , maps := fun _ => none }

/-- Witness for claim C6 on a concrete registry and world. -/
theorem claim_C6_witness :
    (GameMap.get_entity EntKind.scene (EntRef.name "s") (dictSet [] "s" 7) "scene" worldC6 =
      (.ok 7, worldC6, []) ∧
     GameMap.get_entity EntKind.scene (EntRef.obj 7) (dictSet [] "s" 7) "scene" worldC6 =
      (.ok 7, worldC6, [])) ∧
    GameMap.get_entity EntKind.scene (EntRef.name "t") [("s", 7)] "scene" worldC6 =
      (.error (.keyError "t"), worldC6, []) ∧
    GameMap.get_entity EntKind.scene (EntRef.obj 9) [("t", 2)] "scene" worldC6 =
      (.error (.identityMismatch "scene" "t"), worldC6, []) :=
  ⟨(@claim_C6 worldC6 EntKind.scene "scene" [] "s" 7 rfl).1 (dictSet [] "s" 7) rfl,
   (@claim_C6 worldC6 EntKind.scene "scene" [("s", 7)] "t" 9 rfl).2.1 (by decide),
   (@claim_C6 worldC6 EntKind.scene "scene" [("t", 2)] "t" 9 rfl).2.2 2 (by decide)
     (by decide)⟩

/-- World for C7: a map with two scenes — scene (id 0) and other (id 1) —
and one registered player Jo (id 0) whose current scene is scene 0. -/
def worldC7occ : World :=
  { players := fun i => if i = 0 then some { name := "Jo", inv := [], state := [], messages := [], map := some 0, scene := some 0 } else none
  , scenes := fun i =>
      if i = 0 then some { cls := SceneClass.scene, name := "scene", map := 0, state := [] }
      else if i = 1 then some { cls := SceneClass.scene, name := "other", map := 0, state := [] }
      else none
  , maps := fun i => if i = 0 then some { name := "M", starting_scene := some "scene", scenes := [("scene", 0), ("other", 1)], players := [("Jo", 0)] } else none }

/-- Same world, except player Jo currently stands in the other scene (id 1),
so scene 0 is not in use by anyone. -/
def worldC7free : World :=
  { players := fun i => if i = 0 then some { name := "Jo", inv := [], state := [], messages := [], map := some 0, scene := some 1 } else none
  , scenes := worldC7occ.scenes
  , maps := worldC7occ.maps }

/-- Claim C7 evaluated on the code: `Map.remove_scene` iterates the KEYS of
the player registry (`for _, p in self._players`), unpacks each key string
and asserts the unpacked character is a `Player`, so with any registered
player it raises `AssertionError` (or `ValueError` for names whose length is
not two) — never the documented `SceneInUse` error — and it also fails when
no player occupies the scene; with an empty registry, removal by name dies
reading `.name` off the string.  Each run leaves the registries unchanged. -/
theorem claim_C7 :
    (worldC7occ.players 0).map Player.scene = some (some 0) ∧
    GameMap.remove_scene 0 (EntRef.obj 0) worldC7occ =
      (.error Err.assertionError, worldC7occ, []) ∧
    (worldC7free.players 0).map Player.scene = some (some 1) ∧
    GameMap.remove_scene 0 (EntRef.obj 0) worldC7free =
      (.error Err.assertionError, worldC7free, []) ∧
    GameMap.remove_scene 0 (EntRef.name "scene")
        { worldC7occ with maps := fun i => if i = 0 then some { name := "M", starting_scene := some "scene", scenes := [("scene", 0), ("other", 1)], players := [] } else none } =
      (.error (Err.attributeError "name"),
        { worldC7occ with maps := fun i => if i = 0 then some { name := "M", starting_scene := some "scene", scenes := [("scene", 0), ("other", 1)], players := [] } else none }, []) :=
  ⟨rfl, rfl, rfl, rfl, rfl⟩

/-- Harness for C8: push a list of messages in order. -/
def Player.push_msgs (pid : Nat) : List String → Act Unit
  | [] => pure ()
  | msg :: rest => do
      Player.push_msg pid msg
      Player.push_msgs pid rest

/-- Harness for C8: pop `n` times, collecting the results. -/
def Player.pop_msgs (pid : Nat) : Nat → Act (List (Option String))
  | 0 => pure []
  | n + 1 => do
      let m ← Player.pop_msg pid
      let rest ← Player.pop_msgs pid n
      pure (m :: rest)

theorem run_push_msgs {pid : Nat} :
    ∀ (ms : List String) (w : World) (p : Player), w.players pid = some p →
      ∃ w2, Player.push_msgs pid ms w = (.ok (), w2, []) ∧
        w2.players pid = some { p with messages := p.messages ++ ms } := by
  intro ms
  induction ms with
  | nil =>
      intro w p hp
      exact ⟨w, rfl, by simpa using hp⟩
  | cons m rest ih =>
      intro w p hp
      obtain ⟨w2, hrun, hpost⟩ :=
        ih (w.setPlayer pid { p with messages := p.messages ++ [m] })
          { p with messages := p.messages ++ [m] } (World.players_setPlayer_self ..)
      refine ⟨w2, ?_, by simpa using hpost⟩
      have hchain := Act.run_bind_ok _ (fun _ => Player.push_msgs pid rest)
        (run_push_msg m hp) hrun
      simpa [Player.push_msgs] using hchain

theorem run_pop_msgs_empty {pid : Nat} (k : Nat) :
    ∀ (w : World) (p : Player), w.players pid = some p → p.messages = [] →
      Player.pop_msgs pid k w = (.ok (List.replicate k none), w, []) := by
  induction k with
  | zero => intro w p hp hq; rfl
  | succ n ih =>
      intro w p hp hq
      have hpop : Player.pop_msg pid w = (.ok none, w, []) := by
        simp [Player.pop_msg, Bind.bind, Act.bindF, getPlayerA, hp, hq]
      have hrest := ih w p hp hq
      have hchain := Act.run_bind_ok _
        (fun m => Player.pop_msgs pid n >>= fun rest => pure (m :: rest)) hpop
        (Act.run_bind_ok _ (fun rest => pure (none :: rest)) hrest rfl)
      simpa [Player.pop_msgs, List.replicate_succ] using hchain

theorem run_pop_msgs_drain {pid : Nat} (k : Nat) :
    ∀ (q : List String) (w : World) (p : Player),
      w.players pid = some p → p.messages = q →
      ∃ w2, Player.pop_msgs pid (q.length + k) w =
        (.ok (q.map some ++ List.replicate k none), w2, []) := by
  intro q
  induction q with
  | nil =>
      intro w p hp hq
      exact ⟨w, by simpa using run_pop_msgs_empty k w p hp hq⟩
  | cons m rest ih =>
      intro w p hp hq
      have hpop : Player.pop_msg pid w =
          (.ok (some m), w.setPlayer pid { p with messages := rest }, []) := by
        simp [Player.pop_msg, Bind.bind, Act.bindF, Pure.pure, Act.pureF,
          modPlayerA, getPlayerA, hp, hq]
      obtain ⟨w2, hrest⟩ :=
        ih (w.setPlayer pid { p with messages := rest }) { p with messages := rest }
          (World.players_setPlayer_self ..) rfl
      refine ⟨w2, ?_⟩
      have harith : (m :: rest).length + k = (rest.length + k) + 1 := by
        simp [List.length_cons]
        omega
      rw [harith]
      have hchain := Act.run_bind_ok _
        (fun mm => Player.pop_msgs pid (rest.length + k) >>= fun r2 => pure (mm :: r2))
        hpop (Act.run_bind_ok _ (fun r2 => pure (some m :: r2)) hrest rfl)
      simpa [Player.pop_msgs] using hchain

/-- Claim C8: starting from an empty queue, pushing a finite list of
messages and then popping returns exactly those messages in FIFO order as
`some` values, and every pop after the queue drains returns `none` without
throwing, however many extra pops are made. -/
theorem claim_C8 {pid : Nat} {w : World} {p : Player}
    (hp : w.players pid = some p) (hemp : p.messages = [])
    (ms : List String) (k : Nat) :
    ∃ w2, (Player.push_msgs pid ms >>= fun _ => Player.pop_msgs pid (ms.length + k)) w =
      (.ok (ms.map some ++ List.replicate k none), w2, []) := by
  obtain ⟨w1, hpush, hp1⟩ := run_push_msgs ms w p hp
  obtain ⟨w2, hpop⟩ :=
    run_pop_msgs_drain k ms w1 { p with messages := p.messages ++ ms } hp1
      (by simp [hemp])
  refine ⟨w2, ?_⟩
  have hchain := Act.run_bind_ok _ (fun _ => Player.pop_msgs pid (ms.length + k))
    hpush hpop
  simpa using hchain

/-- Witness for claim C8: two messages pushed, four pops. -/
theorem claim_C8_witness :
    ∃ w2, (Player.push_msgs 0 ["a", "b"] >>= fun _ => Player.pop_msgs 0 4)
      { players := fun i => if i = 0 then some { name := "jo", inv := [], state := [], messages := [], map := none, scene := none } else none
      , scenes := fun _ => none, maps := fun _ => none } =
      (.ok [some "a", some "b", none, none], w2, []) := by
  have h := @claim_C8 0
    { players := fun i => if i = 0 then some { name := "jo", inv := [], state := [], messages := [], map := none, scene := none } else none
    , scenes := fun _ => none, maps := fun _ => none }
    { name := "jo", inv := [], state := [], messages := [], map := none, scene := none }
    rfl rfl ["a", "b"] 2
  simpa using h

/-! ## Name immutability (claim C10)

The player name has no setter; no embedded operation changes any player
name.  `keepsNames` states that a run leaves every player name slot
unchanged. -/

theorem Act.world_bind {α β : Type} (x : Act α) (f : α → Act β) (w : World) :
    ((x >>= f) w).2.1 = (match (x w).1 with
      | .ok a => (f a (x w).2.1).2.1
      | .error _ => (x w).2.1) := by
  change (Act.bindF x f w).2.1 = _
  rw [Act.bindF]
  rcases hx : x w with ⟨r, w1, t1⟩
  cases r <;> simp

def namesAgree (w w2 : World) : Prop :=
  ∀ pid, Option.map Player.name (w2.players pid) = Option.map Player.name (w.players pid)

theorem namesAgree_refl (w : World) : namesAgree w w := fun _ => rfl

theorem namesAgree_trans {w w1 w2 : World} (h1 : namesAgree w w1)
    (h2 : namesAgree w1 w2) : namesAgree w w2 :=
  fun pid => (h2 pid).trans (h1 pid)

/-- The run changes no player name, from any starting world. -/
def keepsNames {α : Type} (x : Act α) : Prop := ∀ w, namesAgree w (x w).2.1

theorem keepsNames_bind {α β : Type} {x : Act α} {f : α → Act β}
    (h1 : keepsNames x) (h2 : ∀ a, keepsNames (f a)) : keepsNames (x >>= f) := by
  intro w
  have hw := Act.world_bind x f w
  cases hx : (x w).1 with
  | ok a =>
      rw [hx] at hw
      rw [hw]
      exact namesAgree_trans (h1 w) (h2 a _)
  | error e =>
      rw [hx] at hw
      rw [hw]
      exact h1 w

theorem keepsNames_pure {α : Type} (a : α) : keepsNames (pure a : Act α) :=
  fun w => namesAgree_refl w

theorem keepsNames_throwE {α : Type} (e : Err) : keepsNames (throwE e : Act α) :=
  fun w => namesAgree_refl w

theorem keepsNames_emitEv (ev : Ev) : keepsNames (emitEv ev) :=
  fun w => namesAgree_refl w

theorem keepsNames_getPlayerA (pid : Nat) : keepsNames (getPlayerA pid) := by
  intro w
  unfold getPlayerA
  cases w.players pid <;> exact namesAgree_refl _

theorem keepsNames_getSceneA (sid : Nat) : keepsNames (getSceneA sid) := by
  intro w
  unfold getSceneA
  cases w.scenes sid <;> exact namesAgree_refl _

theorem keepsNames_getMapA (mid : Nat) : keepsNames (getMapA mid) := by
  intro w
  unfold getMapA
  cases w.maps mid <;> exact namesAgree_refl _

theorem keepsNames_modMapA (mid : Nat) (f : GameMap → GameMap) :
    keepsNames (modMapA mid f) := by
  intro w
  unfold modMapA
  cases w.maps mid <;> exact namesAgree_refl _

theorem keepsNames_modSceneA (sid : Nat) (f : Scene → Scene) :
    keepsNames (modSceneA sid f) := by
  intro w
  unfold modSceneA
  cases w.scenes sid <;> exact namesAgree_refl _

theorem keepsNames_modPlayerA {pid : Nat} {f : Player → Player}
    (hf : ∀ p, (f p).name = p.name) : keepsNames (modPlayerA pid f) := by
  intro w
  unfold modPlayerA
  cases hp : w.players pid with
  | none => exact namesAgree_refl _
  | some p =>
      intro pid2
      by_cases h : pid2 = pid
      · subst h
        simp [World.setPlayer, hf, hp]
      · simp [World.players_setPlayer_ne _ _ _ _ h]

theorem keepsNames_push_msg (pid : Nat) (msg : String) :
    keepsNames (Player.push_msg pid msg) :=
  keepsNames_modPlayerA fun _ => rfl

theorem keepsNames_pop_msg (pid : Nat) : keepsNames (Player.pop_msg pid) := by
  refine keepsNames_bind (keepsNames_getPlayerA pid) fun p => ?_
  split
  · exact keepsNames_pure _
  · exact keepsNames_bind (keepsNames_modPlayerA fun _ => rfl) fun _ => keepsNames_pure _

theorem keepsNames_entityNameA (k : EntKind) (i : Nat) : keepsNames (entityNameA k i) := by
  cases k
  · exact keepsNames_bind (keepsNames_getSceneA i) fun s => keepsNames_pure _
  · exact keepsNames_bind (keepsNames_getPlayerA i) fun p => keepsNames_pure _

theorem keepsNames_get_entity (k : EntKind) (r : EntRef) (d : List (String × Nat))
    (caption : String) : keepsNames (GameMap.get_entity k r d caption) := by
  cases r with
  | name s =>
      show keepsNames (match dictGet d s with
        | some i => (pure i : Act Nat)
        | none => throwE (Err.keyError s))
      split
      · exact keepsNames_pure _
      · exact keepsNames_throwE _
  | obj i =>
      show keepsNames (entityNameA k i >>= fun n =>
        match dictGet d n with
        | none => throwE (Err.keyError n)
        | some j => if j = i then pure i else throwE (Err.identityMismatch caption n))
      refine keepsNames_bind (keepsNames_entityNameA k i) fun n => ?_
      split
      · exact keepsNames_throwE _
      · split
        · exact keepsNames_pure _
        · exact keepsNames_throwE _

theorem keepsNames_map_scene (mid : Nat) (r : EntRef) : keepsNames (GameMap.scene mid r) :=
  keepsNames_bind (keepsNames_getMapA mid) fun _m => keepsNames_get_entity _ _ _ _

theorem keepsNames_map_player (mid : Nat) (r : EntRef) : keepsNames (GameMap.player mid r) :=
  keepsNames_bind (keepsNames_getMapA mid) fun _m => keepsNames_get_entity _ _ _ _

theorem keepsNames_add_scene (mid sid : Nat) : keepsNames (GameMap.add_scene mid sid) := by
  refine keepsNames_bind (keepsNames_getMapA mid) fun m => ?_
  refine keepsNames_bind (keepsNames_getSceneA sid) fun sc => ?_
  split
  · exact keepsNames_modMapA mid _
  · exact keepsNames_throwE _

theorem keepsNames_add_player (mid pid : Nat) : keepsNames (GameMap.add_player mid pid) := by
  refine keepsNames_bind (keepsNames_getMapA mid) fun m => ?_
  refine keepsNames_bind (keepsNames_getPlayerA pid) fun p => ?_
  split
  · exact keepsNames_bind (keepsNames_modMapA mid _) fun _ => keepsNames_push_msg pid _
  · exact keepsNames_throwE _

theorem keepsNames_remove_player (mid : Nat) (r : EntRef) :
    keepsNames (GameMap.remove_player mid r) := by
  refine keepsNames_bind (keepsNames_map_player mid r) fun i => ?_
  refine keepsNames_bind (keepsNames_entityNameA EntKind.player i) fun n => ?_
  refine keepsNames_bind (keepsNames_getMapA mid) fun m => ?_
  split
  · exact keepsNames_modMapA mid _
  · exact keepsNames_throwE _

theorem keepsNames_remove_scene_loop (keys : List String) :
    keepsNames (GameMap.remove_scene_loop keys) := by
  cases keys with
  | nil => exact keepsNames_pure _
  | cons k rest =>
      show keepsNames (if k.length = 2 then (throwE Err.assertionError : Act Unit)
        else throwE (Err.valueError "unpack"))
      split
      · exact keepsNames_throwE _
      · exact keepsNames_throwE _

theorem keepsNames_remove_scene (mid : Nat) (r : EntRef) :
    keepsNames (GameMap.remove_scene mid r) := by
  refine keepsNames_bind (keepsNames_map_scene mid r) fun i => ?_
  refine keepsNames_bind (keepsNames_getMapA mid) fun m => ?_
  refine keepsNames_bind (keepsNames_remove_scene_loop _) fun _ => ?_
  cases r with
  | name s => exact keepsNames_throwE _
  | obj i2 =>
      refine keepsNames_bind (keepsNames_entityNameA EntKind.scene i2) fun n => ?_
      refine keepsNames_bind (keepsNames_getMapA mid) fun m2 => ?_
      split
      · exact keepsNames_modMapA mid _
      · exact keepsNames_throwE _

theorem keepsNames_enter_first_time (sid pid : Nat) :
    keepsNames (Scene.enter_first_time sid pid) :=
  keepsNames_bind (keepsNames_emitEv _) fun _ =>
    keepsNames_bind (keepsNames_getSceneA sid) fun _sc => keepsNames_push_msg pid _

theorem keepsNames_enter_again (sid pid : Nat) :
    keepsNames (Scene.enter_again sid pid) :=
  keepsNames_bind (keepsNames_emitEv _) fun _ =>
    keepsNames_bind (keepsNames_getSceneA sid) fun _sc => keepsNames_push_msg pid _

theorem keepsNames_enter_base (sid : Nat) (pref : EntRef) :
    keepsNames (Scene.enter_base sid pref) := by
  refine keepsNames_bind (keepsNames_getSceneA sid) fun sc => ?_
  refine keepsNames_bind (keepsNames_map_player sc.map pref) fun pid => ?_
  refine keepsNames_bind (keepsNames_getPlayerA pid) fun p => ?_
  split
  · exact keepsNames_bind (keepsNames_modPlayerA fun _ => rfl) fun _ =>
      keepsNames_enter_first_time sid pid
  · exact keepsNames_enter_again sid pid

theorem keepsNames_scene_enter (sid : Nat) (pref : EntRef) :
    keepsNames (Scene.enter sid pref) := by
  refine keepsNames_bind (keepsNames_getSceneA sid) fun sc => ?_
  cases hc : sc.cls
  case bear =>
      refine keepsNames_bind (keepsNames_enter_base sid pref) fun _ => ?_
      refine keepsNames_bind (keepsNames_map_player sc.map pref) fun pid => ?_
      refine keepsNames_bind (keepsNames_getSceneA sid) fun sc2 => ?_
      split
      · exact keepsNames_throwE _
      · exact keepsNames_push_msg pid _
      · exact keepsNames_push_msg pid _
  all_goals exact keepsNames_enter_base sid pref

theorem keepsNames_leave_map (pid : Nat) : keepsNames (Player.leave_map pid) := by
  refine keepsNames_bind (keepsNames_getPlayerA pid) fun p => ?_
  cases p.map with
  | none => exact keepsNames_pure _
  | some mid =>
      exact keepsNames_bind (keepsNames_remove_player mid _) fun _ =>
        keepsNames_modPlayerA fun _ => rfl

theorem keepsNames_something_changed (pid : Nat) :
    keepsNames (NormalScene.something_changed pid) := by
  refine keepsNames_bind (keepsNames_getPlayerA pid) fun p => ?_
  split
  · exact keepsNames_throwE _
  · split
    · exact keepsNames_bind (keepsNames_modPlayerA fun _ => rfl) fun _ =>
        keepsNames_push_msg pid _
    · exact keepsNames_pure _

theorem keepsNames_default_scene_ref (mid : Nat) (sref : Option EntRef) :
    keepsNames (Player.default_scene_ref mid sref) := by
  cases sref with
  | some r => exact keepsNames_pure r
  | none =>
      show keepsNames (getMapA mid >>= fun m =>
        match m.starting_scene with
        | some s => pure (EntRef.name s)
        | none => throwE (Err.attributeError "name"))
      refine keepsNames_bind (keepsNames_getMapA mid) fun m => ?_
      split
      · exact keepsNames_pure _
      · exact keepsNames_throwE _

theorem keepsNames_enter_map_rest (pid mid : Nat) (sref : Option EntRef) :
    keepsNames (Player.enter_map_rest pid mid sref) :=
  keepsNames_bind (keepsNames_modPlayerA fun _ => rfl) fun _ =>
    keepsNames_bind (keepsNames_add_player mid pid) fun _ =>
    keepsNames_bind (keepsNames_default_scene_ref mid sref) fun sr =>
    keepsNames_bind (keepsNames_map_scene mid sr) fun sid =>
    keepsNames_scene_enter sid _

theorem keepsNames_enter_map (pid mid : Nat) (sref : Option EntRef) :
    keepsNames (Player.enter_map pid mid sref) :=
  keepsNames_bind (keepsNames_leave_map pid) fun _ =>
    keepsNames_enter_map_rest pid mid sref

theorem keepsNames_action_exit (sid pid : Nat) : keepsNames (Scene.action_exit sid pid) :=
  keepsNames_bind (keepsNames_emitEv _) fun _ =>
    keepsNames_bind (keepsNames_push_msg pid _) fun _ => keepsNames_pure _

theorem keepsNames_action_cant_parse (sid pid : Nat) :
    keepsNames (Scene.action_cant_parse sid pid) := by
  refine keepsNames_bind (keepsNames_emitEv _) fun _ => ?_
  refine keepsNames_bind (keepsNames_getSceneA sid) fun sc => ?_
  cases hc : sc.cls
  case scene =>
      exact keepsNames_bind (keepsNames_push_msg pid _) fun _ => keepsNames_pure _
  all_goals exact keepsNames_throwE _

theorem keepsNames_scene_do (sid : Nat) (pref : EntRef) (inp : String)
    (g : Option Bool) : keepsNames (Scene.do_ sid pref inp g) := by
  refine keepsNames_bind (keepsNames_emitEv _) fun _ => ?_
  cases g with
  | some b => exact keepsNames_pure _
  | none =>
      refine keepsNames_bind (keepsNames_getSceneA sid) fun sc => ?_
      refine keepsNames_bind (keepsNames_map_player sc.map pref) fun pid => ?_
      split
      · exact keepsNames_action_exit sid pid
      · exact keepsNames_action_cant_parse sid pid

theorem keepsNames_action_left (sid pid : Nat) :
    keepsNames (FirstScene.action_left sid pid) :=
  keepsNames_bind (keepsNames_emitEv _) fun _ =>
    keepsNames_bind (keepsNames_push_msg pid _) fun _ =>
    keepsNames_bind (keepsNames_something_changed pid) fun _ =>
    keepsNames_bind (keepsNames_getSceneA sid) fun sc =>
    keepsNames_bind (keepsNames_map_scene sc.map _) fun bid =>
    keepsNames_bind (keepsNames_scene_enter bid _) fun _ => keepsNames_pure _

theorem keepsNames_action_right (sid pid : Nat) :
    keepsNames (FirstScene.action_right sid pid) :=
  keepsNames_bind (keepsNames_emitEv _) fun _ =>
    keepsNames_bind (keepsNames_push_msg pid _) fun _ =>
    keepsNames_bind (keepsNames_something_changed pid) fun _ =>
    keepsNames_bind (keepsNames_getSceneA sid) fun sc =>
    keepsNames_bind (keepsNames_map_scene sc.map _) fun cid =>
    keepsNames_bind (keepsNames_scene_enter cid _) fun _ => keepsNames_pure _

theorem keepsNames_action_center (sid pid : Nat) :
    keepsNames (FirstScene.action_center sid pid) :=
  keepsNames_bind (keepsNames_emitEv _) fun _ =>
    keepsNames_bind (keepsNames_push_msg pid _) fun _ =>
    keepsNames_bind (keepsNames_something_changed pid) fun _ =>
    keepsNames_bind (keepsNames_getSceneA sid) fun sc =>
    keepsNames_bind (keepsNames_map_scene sc.map _) fun lid =>
    keepsNames_bind (keepsNames_scene_enter lid _) fun _ => keepsNames_pure _

theorem keepsNames_first_scene_do (sid : Nat) (pref : EntRef) (inp : String)
    (g : Option Bool) : keepsNames (FirstScene.do_ sid pref inp g) := by
  refine keepsNames_bind (keepsNames_getSceneA sid) fun sc => ?_
  refine keepsNames_bind (keepsNames_map_player sc.map pref) fun pid => ?_
  cases g with
  | some b => exact keepsNames_pure _
  | none =>
      show keepsNames (if RE.fullmatch leftRE inp = true then FirstScene.action_left sid pid
        else if RE.fullmatch rightRE inp = true then FirstScene.action_right sid pid
        else if RE.fullmatch centerRE inp = true then FirstScene.action_center sid pid
        else Scene.do_ sid (EntRef.obj pid) inp none)
      split
      · exact keepsNames_action_left sid pid
      · split
        · exact keepsNames_action_right sid pid
        · split
          · exact keepsNames_action_center sid pid
          · exact keepsNames_scene_do sid (EntRef.obj pid) inp none

/-- The public operations of the engine, as an enumeration for the name
immutability statement. -/
inductive PubOp where
  | push_msg (pid : Nat) (msg : String)
  | pop_msg (pid : Nat)
  | leave_map (pid : Nat)
  | enter_map (pid mid : Nat) (sref : Option EntRef)
  | scene_enter (sid : Nat) (pref : EntRef)
  | scene_do (sid : Nat) (pref : EntRef) (inp : String) (g : Option Bool)
  | first_scene_do (sid : Nat) (pref : EntRef) (inp : String) (g : Option Bool)
  | add_scene (mid sid : Nat)
  | add_player (mid pid : Nat)
  | map_scene (mid : Nat) (r : EntRef)
  | map_player (mid : Nat) (r : EntRef)
  | remove_player (mid : Nat) (r : EntRef)
  | remove_scene (mid : Nat) (r : EntRef)

/-- Run a public operation, discarding its return value. -/
def PubOp.run : PubOp → Act Unit
  | .push_msg pid msg => Player.push_msg pid msg
  | .pop_msg pid => Player.pop_msg pid >>= fun _ => pure ()
  | .leave_map pid => Player.leave_map pid
  | .enter_map pid mid sref => Player.enter_map pid mid sref
  | .scene_enter sid pref => Scene.enter sid pref
  | .scene_do sid pref inp g => Scene.do_ sid pref inp g >>= fun _ => pure ()
  | .first_scene_do sid pref inp g => FirstScene.do_ sid pref inp g >>= fun _ => pure ()
  | .add_scene mid sid => GameMap.add_scene mid sid
  | .add_player mid pid => GameMap.add_player mid pid
  | .map_scene mid r => GameMap.scene mid r >>= fun _ => pure ()
  | .map_player mid r => GameMap.player mid r >>= fun _ => pure ()
  | .remove_player mid r => GameMap.remove_player mid r
  | .remove_scene mid r => GameMap.remove_scene mid r

theorem keepsNames_pubop (op : PubOp) : keepsNames op.run := by
  cases op with
  | push_msg pid msg => exact keepsNames_push_msg pid msg
  | pop_msg pid => exact keepsNames_bind (keepsNames_pop_msg pid) fun _ => keepsNames_pure _
  | leave_map pid => exact keepsNames_leave_map pid
  | enter_map pid mid sref => exact keepsNames_enter_map pid mid sref
  | scene_enter sid pref => exact keepsNames_scene_enter sid pref
  | scene_do sid pref inp g =>
      exact keepsNames_bind (keepsNames_scene_do sid pref inp g) fun _ => keepsNames_pure _
  | first_scene_do sid pref inp g =>
      exact keepsNames_bind (keepsNames_first_scene_do sid pref inp g) fun _ =>
        keepsNames_pure _
  | add_scene mid sid => exact keepsNames_add_scene mid sid
  | add_player mid pid => exact keepsNames_add_player mid pid
  | map_scene mid r => exact keepsNames_bind (keepsNames_map_scene mid r) fun _ => keepsNames_pure _
  | map_player mid r => exact keepsNames_bind (keepsNames_map_player mid r) fun _ => keepsNames_pure _
  | remove_player mid r => exact keepsNames_remove_player mid r
  | remove_scene mid r => exact keepsNames_remove_scene mid r

/-- Claim C10: constructing a player with name None or the empty string
yields the default translated name Nameless, any other string is taken
exactly, and no public operation of the engine ever changes the name slot of
any player. -/
theorem claim_C10 :
    Player.init_name none = "Nameless" ∧
    Player.init_name (some "") = "Nameless" ∧
    (∀ s, s ≠ "" → Player.init_name (some s) = s) ∧
    (∀ op : PubOp, ∀ w pid, Option.map Player.name ((op.run w).2.1.players pid) =
      Option.map Player.name (w.players pid)) :=
  ⟨rfl, rfl, fun s hs => by simp [Player.init_name, hs],
   fun op w pid => keepsNames_pubop op w pid⟩

/-- Witness for claim C10 on a concrete name and a concrete operation run:
an `enter_map` call on a small world leaves the name of player 0 unchanged. -/
theorem claim_C10_witness :
    Player.init_name (some "bob") = "bob" ∧
    Option.map Player.name (((PubOp.run (PubOp.enter_map 0 0 none)) worldC3).2.1.players 0) =
      Option.map Player.name (worldC3.players 0) :=
  ⟨claim_C10.2.2.1 "bob" (by decide),
   claim_C10.2.2.2 (PubOp.enter_map 0 0 none) worldC3 0⟩

/-! ## Map/registry consistency (claim C4) -/

/-- The name and map pointer of a player — everything the consistency
invariant reads off a player record. -/
def playerCore (p : Player) : String × Option Nat := (p.name, p.map)

/-- The run changes no map object and no player name or map pointer (it may
touch messages, states and scene pointers).  `Scene.enter` has this
property. -/
def corePres {α : Type} (x : Act α) : Prop :=
  ∀ w, (x w).2.1.maps = w.maps ∧
    ∀ pid, Option.map playerCore ((x w).2.1.players pid) =
      Option.map playerCore (w.players pid)

theorem corePres_bind {α β : Type} {x : Act α} {f : α → Act β}
    (h1 : corePres x) (h2 : ∀ a, corePres (f a)) : corePres (x >>= f) := by
  intro w
  have hw := Act.world_bind x f w
  cases hx : (x w).1 with
  | ok a =>
      rw [hx] at hw
      rw [hw]
      exact ⟨((h2 a _).1).trans (h1 w).1,
        fun pid => (((h2 a _).2) pid).trans ((h1 w).2 pid)⟩
  | error e =>
      rw [hx] at hw
      rw [hw]
      exact h1 w

theorem corePres_pure {α : Type} (a : α) : corePres (pure a : Act α) :=
  fun _ => ⟨rfl, fun _ => rfl⟩

theorem corePres_throwE {α : Type} (e : Err) : corePres (throwE e : Act α) :=
  fun _ => ⟨rfl, fun _ => rfl⟩

theorem corePres_emitEv (ev : Ev) : corePres (emitEv ev) :=
  fun _ => ⟨rfl, fun _ => rfl⟩

theorem corePres_getPlayerA (pid : Nat) : corePres (getPlayerA pid) := by
  intro w
  unfold getPlayerA
  cases w.players pid <;> exact ⟨rfl, fun _ => rfl⟩

theorem corePres_getSceneA (sid : Nat) : corePres (getSceneA sid) := by
  intro w
  unfold getSceneA
  cases w.scenes sid <;> exact ⟨rfl, fun _ => rfl⟩

theorem corePres_getMapA (mid : Nat) : corePres (getMapA mid) := by
  intro w
  unfold getMapA
  cases w.maps mid <;> exact ⟨rfl, fun _ => rfl⟩

theorem corePres_modPlayerA {pid : Nat} {f : Player → Player}
    (hf : ∀ p, playerCore (f p) = playerCore p) : corePres (modPlayerA pid f) := by
  intro w
  unfold modPlayerA
  cases hp : w.players pid with
  | none => exact ⟨rfl, fun _ => rfl⟩
  | some p =>
      refine ⟨rfl, fun pid2 => ?_⟩
      by_cases h : pid2 = pid
      · subst h
        simp [World.setPlayer, hf, hp]
      · simp [World.players_setPlayer_ne _ _ _ _ h]

theorem corePres_push_msg (pid : Nat) (msg : String) :
    corePres (Player.push_msg pid msg) :=
  corePres_modPlayerA fun _ => rfl

theorem corePres_entityNameA (k : EntKind) (i : Nat) : corePres (entityNameA k i) := by
  cases k
  · exact corePres_bind (corePres_getSceneA i) fun s => corePres_pure _
  · exact corePres_bind (corePres_getPlayerA i) fun p => corePres_pure _

theorem corePres_get_entity (k : EntKind) (r : EntRef) (d : List (String × Nat))
    (caption : String) : corePres (GameMap.get_entity k r d caption) := by
  cases r with
  | name s =>
      show corePres (match dictGet d s with
        | some i => (pure i : Act Nat)
        | none => throwE (Err.keyError s))
      split
      · exact corePres_pure _
      · exact corePres_throwE _
  | obj i =>
      show corePres (entityNameA k i >>= fun n =>
        match dictGet d n with
        | none => throwE (Err.keyError n)
        | some j => if j = i then pure i else throwE (Err.identityMismatch caption n))
      refine corePres_bind (corePres_entityNameA k i) fun n => ?_
      split
      · exact corePres_throwE _
      · split
        · exact corePres_pure _
        · exact corePres_throwE _

theorem corePres_map_player (mid : Nat) (r : EntRef) : corePres (GameMap.player mid r) :=
  corePres_bind (corePres_getMapA mid) fun _m => corePres_get_entity _ _ _ _

theorem corePres_enter_first_time (sid pid : Nat) :
    corePres (Scene.enter_first_time sid pid) :=
  corePres_bind (corePres_emitEv _) fun _ =>
    corePres_bind (corePres_getSceneA sid) fun _sc => corePres_push_msg pid _

theorem corePres_enter_again (sid pid : Nat) :
    corePres (Scene.enter_again sid pid) :=
  corePres_bind (corePres_emitEv _) fun _ =>
    corePres_bind (corePres_getSceneA sid) fun _sc => corePres_push_msg pid _

theorem corePres_enter_base (sid : Nat) (pref : EntRef) :
    corePres (Scene.enter_base sid pref) := by
  refine corePres_bind (corePres_getSceneA sid) fun sc => ?_
  refine corePres_bind (corePres_map_player sc.map pref) fun pid => ?_
  refine corePres_bind (corePres_getPlayerA pid) fun p => ?_
  split
  · exact corePres_bind (corePres_modPlayerA fun _ => rfl) fun _ =>
      corePres_enter_first_time sid pid
  · exact corePres_enter_again sid pid

theorem corePres_scene_enter (sid : Nat) (pref : EntRef) :
    corePres (Scene.enter sid pref) := by
  refine corePres_bind (corePres_getSceneA sid) fun sc => ?_
  cases hc : sc.cls
  case bear =>
      refine corePres_bind (corePres_enter_base sid pref) fun _ => ?_
      refine corePres_bind (corePres_map_player sc.map pref) fun pid => ?_
      refine corePres_bind (corePres_getSceneA sid) fun sc2 => ?_
      split
      · exact corePres_throwE _
      · exact corePres_push_msg pid _
      · exact corePres_push_msg pid _
  all_goals exact corePres_enter_base sid pref

/-- The run returns the world unchanged (pure readers). -/
def readOnlyRun {α : Type} (x : Act α) : Prop := ∀ w, (x w).2.1 = w

theorem readOnlyRun_bind {α β : Type} {x : Act α} {f : α → Act β}
    (h1 : readOnlyRun x) (h2 : ∀ a, readOnlyRun (f a)) : readOnlyRun (x >>= f) := by
  intro w
  have hw := Act.world_bind x f w
  cases hx : (x w).1 with
  | ok a =>
      rw [hx] at hw
      rw [hw, h1 w]
      exact h2 a w
  | error e =>
      rw [hx] at hw
      rw [hw]
      exact h1 w

theorem readOnlyRun_pure {α : Type} (a : α) : readOnlyRun (pure a : Act α) := fun _ => rfl

theorem readOnlyRun_throwE {α : Type} (e : Err) : readOnlyRun (throwE e : Act α) :=
  fun _ => rfl

theorem readOnlyRun_getMapA (mid : Nat) : readOnlyRun (getMapA mid) := by
  intro w
  unfold getMapA
  cases w.maps mid <;> rfl

theorem readOnlyRun_getSceneA (sid : Nat) : readOnlyRun (getSceneA sid) := by
  intro w
  unfold getSceneA
  cases w.scenes sid <;> rfl

theorem readOnlyRun_getPlayerA (pid : Nat) : readOnlyRun (getPlayerA pid) := by
  intro w
  unfold getPlayerA
  cases w.players pid <;> rfl

theorem readOnlyRun_entityNameA (k : EntKind) (i : Nat) : readOnlyRun (entityNameA k i) := by
  cases k
  · exact readOnlyRun_bind (readOnlyRun_getSceneA i) fun s => readOnlyRun_pure _
  · exact readOnlyRun_bind (readOnlyRun_getPlayerA i) fun p => readOnlyRun_pure _

theorem readOnlyRun_get_entity (k : EntKind) (r : EntRef) (d : List (String × Nat))
    (caption : String) : readOnlyRun (GameMap.get_entity k r d caption) := by
  cases r with
  | name s =>
      show readOnlyRun (match dictGet d s with
        | some i => (pure i : Act Nat)
        | none => throwE (Err.keyError s))
      split
      · exact readOnlyRun_pure _
      · exact readOnlyRun_throwE _
  | obj i =>
      show readOnlyRun (entityNameA k i >>= fun n =>
        match dictGet d n with
        | none => throwE (Err.keyError n)
        | some j => if j = i then pure i else throwE (Err.identityMismatch caption n))
      refine readOnlyRun_bind (readOnlyRun_entityNameA k i) fun n => ?_
      split
      · exact readOnlyRun_throwE _
      · split
        · exact readOnlyRun_pure _
        · exact readOnlyRun_throwE _

theorem readOnlyRun_map_scene (mid : Nat) (r : EntRef) :
    readOnlyRun (GameMap.scene mid r) :=
  readOnlyRun_bind (readOnlyRun_getMapA mid) fun _m => readOnlyRun_get_entity _ _ _ _

theorem readOnlyRun_default_scene_ref (mid : Nat) (sref : Option EntRef) :
    readOnlyRun (Player.default_scene_ref mid sref) := by
  cases sref with
  | some r => exact readOnlyRun_pure r
  | none =>
      show readOnlyRun (getMapA mid >>= fun m =>
        match m.starting_scene with
        | some s => pure (EntRef.name s)
        | none => throwE (Err.attributeError "name"))
      refine readOnlyRun_bind (readOnlyRun_getMapA mid) fun m => ?_
      split
      · exact readOnlyRun_pure _
      · exact readOnlyRun_throwE _

/-- The two-sided consistency invariant of claim C4: registry keys are
duplicate-free; a player points at a map exactly when that map's registry
binds the player's name to it; and every registry entry refers to a live
player carrying that name. -/
def Consistent (w : World) : Prop :=
  (∀ mid ms, w.maps mid = some ms → (ms.players.map Prod.fst).Nodup) ∧
  (∀ pid p, w.players pid = some p → ∀ mid, (p.map = some mid ↔
    ∃ ms, w.maps mid = some ms ∧ dictGet ms.players p.name = some pid)) ∧
  (∀ mid ms nm pid, w.maps mid = some ms → dictGet ms.players nm = some pid →
    ∃ p, w.players pid = some p ∧ p.name = nm)

/-- Consistency only reads maps and player cores, so it transfers along any
core-preserving world change. -/
theorem consistent_of_core {w w2 : World} (hmaps : w2.maps = w.maps)
    (hcore : ∀ pid, Option.map playerCore (w2.players pid) =
      Option.map playerCore (w.players pid))
    (hC : Consistent w) : Consistent w2 := by
  obtain ⟨h1, h2, h3⟩ := hC
  refine ⟨?_, ?_, ?_⟩
  · intro mid ms hm
    exact h1 mid ms (hmaps ▸ hm)
  · intro pid p hp mid
    have hcp := hcore pid
    rw [hp] at hcp
    cases hq : w.players pid with
    | none => rw [hq] at hcp; cases hcp
    | some q =>
        rw [hq] at hcp
        have hname : p.name = q.name := congrArg Prod.fst (Option.some.inj hcp)
        have hmap : p.map = q.map := congrArg Prod.snd (Option.some.inj hcp)
        rw [hmap, hname, hmaps]
        exact h2 pid q hq mid
  · intro mid ms nm pid hm hreg
    obtain ⟨p, hp, hname⟩ := h3 mid ms nm pid (hmaps ▸ hm) hreg
    have hcp := hcore pid
    rw [hp] at hcp
    cases hq : w2.players pid with
    | none => rw [hq] at hcp; cases hcp
    | some q =>
        rw [hq] at hcp
        exact ⟨q, rfl, (congrArg Prod.fst (Option.some.inj hcp)).trans hname⟩

theorem leave_map_spec {pid : Nat} {w : World} {p : Player}
    (hC : Consistent w) (hp : w.players pid = some p) :
    ∃ w1 p1, Player.leave_map pid w = (.ok (), w1, []) ∧ Consistent w1 ∧
      w1.players pid = some p1 ∧ p1.map = none ∧ p1.name = p.name := by
  obtain ⟨hnd, hiff, hlive⟩ := hC
  cases hmap : p.map with
  | none =>
      exact ⟨w, p, run_leave_map_unattached hp hmap, ⟨hnd, hiff, hlive⟩, hp, hmap, rfl⟩
  | some mid =>
      obtain ⟨ms, hm, hreg⟩ := (hiff pid p hp mid).mp hmap
      have hndm := hnd mid ms hm
      have hpl_self : ((w.setMap mid { ms with players := dictDel ms.players p.name }).setPlayer pid { p with map := none, scene := none }).players pid = some { p with map := none, scene := none } :=
        World.players_setPlayer_self ..
      have hpl_ne : ∀ pid2, pid2 ≠ pid → ((w.setMap mid { ms with players := dictDel ms.players p.name }).setPlayer pid { p with map := none, scene := none }).players pid2 = w.players pid2 := by
        intro pid2 hpid
        rw [World.players_setPlayer_ne _ _ _ _ hpid]
        rfl
      have hmaps_self : ((w.setMap mid { ms with players := dictDel ms.players p.name }).setPlayer pid { p with map := none, scene := none }).maps mid = some { ms with players := dictDel ms.players p.name } :=
        World.maps_setMap_self ..
      have hmaps_ne : ∀ mid2, mid2 ≠ mid → ((w.setMap mid { ms with players := dictDel ms.players p.name }).setPlayer pid { p with map := none, scene := none }).maps mid2 = w.maps mid2 := by
        intro mid2 hmid
        exact World.maps_setMap_ne _ _ _ _ hmid
      refine ⟨(w.setMap mid { ms with players := dictDel ms.players p.name }).setPlayer
        pid { p with map := none, scene := none },
        { p with map := none, scene := none },
        run_leave_map_attached hp hmap hm hreg, ⟨?_, ?_, ?_⟩, hpl_self, rfl, rfl⟩
      · -- key nodup
        intro mid2 ms2 hm2
        by_cases hmid : mid2 = mid
        · rw [hmid, hmaps_self] at hm2
          rw [← Option.some.inj hm2]
          exact nodup_keys_dictDel ms.players p.name hndm
        · rw [hmaps_ne mid2 hmid] at hm2
          exact hnd mid2 ms2 hm2
      · -- the two-sided iff
        intro pid2 p2 hp2 mid2
        by_cases hpid : pid2 = pid
        · rw [hpid, hpl_self] at hp2
          rw [hpid]
          have hp2eq : p2 = { p with map := none, scene := none } :=
            (Option.some.inj hp2).symm
          subst hp2eq
          constructor
          · intro h
            cases h
          · rintro ⟨ms2, hm2, hr2⟩
            by_cases hmid : mid2 = mid
            · rw [hmid, hmaps_self] at hm2
              rw [← Option.some.inj hm2] at hr2
              rw [show Player.name { p with map := none, scene := none } = p.name from rfl] at hr2
              rw [show GameMap.players { ms with players := dictDel ms.players p.name } = dictDel ms.players p.name from rfl] at hr2
              rw [dictGet_dictDel_self ms.players p.name hndm] at hr2
              cases hr2
            · rw [hmaps_ne mid2 hmid] at hm2
              have hx : p.map = some mid2 := (hiff pid p hp mid2).mpr ⟨ms2, hm2, hr2⟩
              rw [hmap] at hx
              exact absurd (Option.some.inj hx).symm hmid
        · rw [hpl_ne pid2 hpid] at hp2
          by_cases hmid : mid2 = mid
          · rw [hmid]
            by_cases hnm : p2.name = p.name
            · constructor
              · intro h
                obtain ⟨ms2, hm2, hr2⟩ := (hiff pid2 p2 hp2 mid).mp h
                rw [hm] at hm2
                rw [← Option.some.inj hm2, hnm, hreg] at hr2
                exact absurd (Option.some.inj hr2).symm hpid
              · rintro ⟨ms2, hm2, hr2⟩
                rw [hmaps_self] at hm2
                rw [← Option.some.inj hm2] at hr2
                rw [show GameMap.players { ms with players := dictDel ms.players p.name } = dictDel ms.players p.name from rfl, hnm, dictGet_dictDel_self ms.players p.name hndm] at hr2
                cases hr2
            · constructor
              · intro h
                obtain ⟨ms2, hm2, hr2⟩ := (hiff pid2 p2 hp2 mid).mp h
                rw [hm] at hm2
                rw [← Option.some.inj hm2] at hr2
                refine ⟨{ ms with players := dictDel ms.players p.name }, hmaps_self, ?_⟩
                show dictGet (dictDel ms.players p.name) p2.name = some pid2
                rw [dictGet_dictDel_ne ms.players p.name p2.name hnm]
                exact hr2
              · rintro ⟨ms2, hm2, hr2⟩
                rw [hmaps_self] at hm2
                rw [← Option.some.inj hm2] at hr2
                rw [show GameMap.players { ms with players := dictDel ms.players p.name } = dictDel ms.players p.name from rfl, dictGet_dictDel_ne ms.players p.name p2.name hnm] at hr2
                exact (hiff pid2 p2 hp2 mid).mpr ⟨ms, hm, hr2⟩
          · constructor
            · intro h
              obtain ⟨ms2, hm2, hr2⟩ := (hiff pid2 p2 hp2 mid2).mp h
              exact ⟨ms2, by rw [hmaps_ne mid2 hmid]; exact hm2, hr2⟩
            · rintro ⟨ms2, hm2, hr2⟩
              rw [hmaps_ne mid2 hmid] at hm2
              exact (hiff pid2 p2 hp2 mid2).mpr ⟨ms2, hm2, hr2⟩
      · -- registry entries stay live
        intro mid2 ms2 nm pid2 hm2 hr2
        by_cases hmid : mid2 = mid
        · rw [hmid, hmaps_self] at hm2
          rw [← Option.some.inj hm2] at hr2
          have hr2b : dictGet ms.players nm = some pid2 :=
            dictGet_of_dictDel ms.players p.name nm pid2 hndm hr2
          obtain ⟨q, hq, hqname⟩ := hlive mid ms nm pid2 hm hr2b
          by_cases hpid : pid2 = pid
          · rw [hpid]
            refine ⟨{ p with map := none, scene := none }, hpl_self, ?_⟩
            rw [hpid, hp] at hq
            rw [show Player.name { p with map := none, scene := none } = p.name from rfl]
            rw [show p.name = Player.name q from congrArg Player.name (Option.some.inj hq)]
            exact hqname
          · exact ⟨q, by rw [hpl_ne pid2 hpid]; exact hq, hqname⟩
        · rw [hmaps_ne mid2 hmid] at hm2
          obtain ⟨q, hq, hqname⟩ := hlive mid2 ms2 nm pid2 hm2 hr2
          by_cases hpid : pid2 = pid
          · rw [hpid]
            refine ⟨{ p with map := none, scene := none }, hpl_self, ?_⟩
            rw [hpid, hp] at hq
            rw [show Player.name { p with map := none, scene := none } = p.name from rfl]
            rw [show p.name = Player.name q from congrArg Player.name (Option.some.inj hq)]
            exact hqname
          · exact ⟨q, by rw [hpl_ne pid2 hpid]; exact hq, hqname⟩

theorem Act.result_bind {α β : Type} (x : Act α) (f : α → Act β) (w : World) :
    ((x >>= f) w).1 = (match (x w).1 with
      | .ok a => (f a (x w).2.1).1
      | .error e => .error e) := by
  change (Act.bindF x f w).1 = _
  rw [Act.bindF]
  rcases hx : x w with ⟨r, w1, t1⟩
  cases r <;> simp

/-- Consistency of the world right after a successful registration: the
leaving phase produced a detached player `p1`, the target registry was free
at its name, and the new player record `pB` carries the same name and points
at the target map. -/
theorem consistent_after_add {pid mid : Nat} {w1 : World} {p1 pB : Player} {msA : GameMap}
    (hC : Consistent w1) (hp1 : w1.players pid = some p1) (hmap1 : p1.map = none)
    (hmA : w1.maps mid = some msA) (hfree : dictGet msA.players p1.name = none)
    (hBname : pB.name = p1.name) (hBmap : pB.map = some mid) :
    Consistent ((w1.setMap mid { msA with players := dictSet msA.players p1.name pid }).setPlayer pid pB) := by
  obtain ⟨hnd, hiff, hlive⟩ := hC
  have hndA := hnd mid msA hmA
  have hpl_self : ((w1.setMap mid { msA with players := dictSet msA.players p1.name pid }).setPlayer pid pB).players pid = some pB :=
    World.players_setPlayer_self ..
  have hpl_ne : ∀ pid2, pid2 ≠ pid → ((w1.setMap mid { msA with players := dictSet msA.players p1.name pid }).setPlayer pid pB).players pid2 = w1.players pid2 := by
    intro pid2 hpid
    rw [World.players_setPlayer_ne _ _ _ _ hpid]
    rfl
  have hmaps_self : ((w1.setMap mid { msA with players := dictSet msA.players p1.name pid }).setPlayer pid pB).maps mid = some { msA with players := dictSet msA.players p1.name pid } :=
    World.maps_setMap_self ..
  have hmaps_ne : ∀ mid2, mid2 ≠ mid → ((w1.setMap mid { msA with players := dictSet msA.players p1.name pid }).setPlayer pid pB).maps mid2 = w1.maps mid2 := by
    intro mid2 hmid
    exact World.maps_setMap_ne _ _ _ _ hmid
  refine ⟨?_, ?_, ?_⟩
  · intro mid2 ms2 hm2
    by_cases hmid : mid2 = mid
    · rw [hmid, hmaps_self] at hm2
      rw [← Option.some.inj hm2]
      exact nodup_keys_dictSet msA.players p1.name pid hndA
    · rw [hmaps_ne mid2 hmid] at hm2
      exact hnd mid2 ms2 hm2
  · intro pid2 p2 hp2 mid2
    by_cases hpid : pid2 = pid
    · rw [hpid, hpl_self] at hp2
      rw [hpid]
      have hp2eq : p2 = pB := (Option.some.inj hp2).symm
      subst hp2eq
      constructor
      · intro h
        rw [hBmap] at h
        have hmid : mid = mid2 := Option.some.inj h
        refine ⟨{ msA with players := dictSet msA.players p1.name pid }, by rw [← hmid]; exact hmaps_self, ?_⟩
        show dictGet (dictSet msA.players p1.name pid) p2.name = some pid
        rw [hBname]
        exact dictGet_dictSet_self msA.players p1.name pid
      · rintro ⟨ms2, hm2, hr2⟩
        by_cases hmid : mid2 = mid
        · rw [hmid]
          exact hBmap
        · rw [hmaps_ne mid2 hmid] at hm2
          rw [hBname] at hr2
          have hx : p1.map = some mid2 := (hiff pid p1 hp1 mid2).mpr ⟨ms2, hm2, hr2⟩
          rw [hmap1] at hx
          cases hx
    · rw [hpl_ne pid2 hpid] at hp2
      by_cases hmid : mid2 = mid
      · rw [hmid]
        by_cases hnm : p2.name = p1.name
        · constructor
          · intro h
            obtain ⟨ms2, hm2, hr2⟩ := (hiff pid2 p2 hp2 mid).mp h
            rw [hmA] at hm2
            rw [← Option.some.inj hm2, hnm, hfree] at hr2
            cases hr2
          · rintro ⟨ms2, hm2, hr2⟩
            rw [hmaps_self] at hm2
            rw [← Option.some.inj hm2] at hr2
            rw [show GameMap.players { msA with players := dictSet msA.players p1.name pid } = dictSet msA.players p1.name pid from rfl, hnm, dictGet_dictSet_self msA.players p1.name pid] at hr2
            exact absurd (Option.some.inj hr2).symm hpid
        · constructor
          · intro h
            obtain ⟨ms2, hm2, hr2⟩ := (hiff pid2 p2 hp2 mid).mp h
            rw [hmA] at hm2
            rw [← Option.some.inj hm2] at hr2
            refine ⟨{ msA with players := dictSet msA.players p1.name pid }, hmaps_self, ?_⟩
            show dictGet (dictSet msA.players p1.name pid) p2.name = some pid2
            rw [dictGet_dictSet_ne msA.players p1.name p2.name pid hnm]
            exact hr2
          · rintro ⟨ms2, hm2, hr2⟩
            rw [hmaps_self] at hm2
            rw [← Option.some.inj hm2] at hr2
            rw [show GameMap.players { msA with players := dictSet msA.players p1.name pid } = dictSet msA.players p1.name pid from rfl, dictGet_dictSet_ne msA.players p1.name p2.name pid hnm] at hr2
            exact (hiff pid2 p2 hp2 mid).mpr ⟨msA, hmA, hr2⟩
      · constructor
        · intro h
          obtain ⟨ms2, hm2, hr2⟩ := (hiff pid2 p2 hp2 mid2).mp h
          exact ⟨ms2, by rw [hmaps_ne mid2 hmid]; exact hm2, hr2⟩
        · rintro ⟨ms2, hm2, hr2⟩
          rw [hmaps_ne mid2 hmid] at hm2
          exact (hiff pid2 p2 hp2 mid2).mpr ⟨ms2, hm2, hr2⟩
  · intro mid2 ms2 nm pid2 hm2 hr2
    by_cases hmid : mid2 = mid
    · rw [hmid, hmaps_self] at hm2
      rw [← Option.some.inj hm2] at hr2
      rw [show GameMap.players { msA with players := dictSet msA.players p1.name pid } = dictSet msA.players p1.name pid from rfl] at hr2
      by_cases hnm : nm = p1.name
      · rw [hnm, dictGet_dictSet_self msA.players p1.name pid] at hr2
        have hpid2 : pid2 = pid := (Option.some.inj hr2).symm
        rw [hpid2]
        exact ⟨pB, hpl_self, by rw [hBname, hnm]⟩
      · rw [dictGet_dictSet_ne msA.players p1.name nm pid hnm] at hr2
        obtain ⟨q, hq, hqname⟩ := hlive mid msA nm pid2 hmA hr2
        by_cases hpid : pid2 = pid
        · rw [hpid, hp1] at hq
          have hqeq : p1 = q := Option.some.inj hq
          rw [← hqeq] at hqname
          exact absurd hqname.symm hnm
        · exact ⟨q, by rw [hpl_ne pid2 hpid]; exact hq, hqname⟩
    · rw [hmaps_ne mid2 hmid] at hm2
      obtain ⟨q, hq, hqname⟩ := hlive mid2 ms2 nm pid2 hm2 hr2
      by_cases hpid : pid2 = pid
      · rw [hpid, hp1] at hq
        have hqeq : p1 = q := Option.some.inj hq
        rw [hpid]
        refine ⟨pB, hpl_self, ?_⟩
        rw [hBname, hqeq]
        exact hqname
      · exact ⟨q, by rw [hpl_ne pid2 hpid]; exact hq, hqname⟩

theorem enter_map_consistent {pid mid : Nat} {w : World} {p : Player} (sref : Option EntRef)
    (hC : Consistent w) (hp : w.players pid = some p)
    (hok : (Player.enter_map pid mid sref w).1 = Except.ok ()) :
    Consistent (Player.enter_map pid mid sref w).2.1 := by
  obtain ⟨w1, p1, hleave, hC1, hp1, hmap1, _hname1⟩ := leave_map_spec hC hp
  have hres0 : (Player.enter_map pid mid sref w).1 =
      (Player.enter_map_rest pid mid sref w1).1 := by
    have h := Act.result_bind (Player.leave_map pid)
      (fun _ => Player.enter_map_rest pid mid sref) w
    rw [hleave] at h
    simpa using h
  have hwrld0 : (Player.enter_map pid mid sref w).2.1 =
      (Player.enter_map_rest pid mid sref w1).2.1 := by
    have h := Act.world_bind (Player.leave_map pid)
      (fun _ => Player.enter_map_rest pid mid sref) w
    rw [hleave] at h
    simpa using h
  rw [hres0] at hok
  rw [hwrld0]
  have hmod : modPlayerA pid (fun q => { q with map := some mid }) w1 =
      (.ok (), w1.setPlayer pid { p1 with map := some mid }, []) :=
    Act.run_modPlayerA hp1
  have hres1 : (Player.enter_map_rest pid mid sref w1).1 =
      ((GameMap.add_player mid pid >>= fun _ =>
        Player.default_scene_ref mid sref >>= fun sr =>
        GameMap.scene mid sr >>= fun sid =>
        Scene.enter sid (EntRef.obj pid)) (w1.setPlayer pid { p1 with map := some mid })).1 := by
    have h := Act.result_bind (modPlayerA pid fun q => { q with map := some mid })
      (fun _ => GameMap.add_player mid pid >>= fun _ =>
        Player.default_scene_ref mid sref >>= fun sr =>
        GameMap.scene mid sr >>= fun sid =>
        Scene.enter sid (EntRef.obj pid)) w1
    rw [hmod] at h
    simpa using h
  have hwrld1 : (Player.enter_map_rest pid mid sref w1).2.1 =
      ((GameMap.add_player mid pid >>= fun _ =>
        Player.default_scene_ref mid sref >>= fun sr =>
        GameMap.scene mid sr >>= fun sid =>
        Scene.enter sid (EntRef.obj pid)) (w1.setPlayer pid { p1 with map := some mid })).2.1 := by
    have h := Act.world_bind (modPlayerA pid fun q => { q with map := some mid })
      (fun _ => GameMap.add_player mid pid >>= fun _ =>
        Player.default_scene_ref mid sref >>= fun sr =>
        GameMap.scene mid sr >>= fun sid =>
        Scene.enter sid (EntRef.obj pid)) w1
    rw [hmod] at h
    simpa using h
  rw [hres1] at hok
  rw [hwrld1]
  cases hmA : w1.maps mid with
  | none =>
      exfalso
      have haddfail : GameMap.add_player mid pid
          (w1.setPlayer pid { p1 with map := some mid }) =
          (.error .badHandle, w1.setPlayer pid { p1 with map := some mid }, []) := by
        simp [GameMap.add_player, Bind.bind, Act.bindF, getMapA, hmA]
      have hfail : ((GameMap.add_player mid pid >>= fun _ =>
          Player.default_scene_ref mid sref >>= fun sr =>
          GameMap.scene mid sr >>= fun sid =>
          Scene.enter sid (EntRef.obj pid)) (w1.setPlayer pid { p1 with map := some mid })).1 =
          .error .badHandle := by
        have h := Act.result_bind (GameMap.add_player mid pid)
          (fun _ => Player.default_scene_ref mid sref >>= fun sr =>
            GameMap.scene mid sr >>= fun sid =>
            Scene.enter sid (EntRef.obj pid)) (w1.setPlayer pid { p1 with map := some mid })
        rw [haddfail] at h
        simpa using h
      rw [hfail] at hok
      exact Except.noConfusion hok
  | some msA =>
      cases hfree : dictGet msA.players p1.name with
      | some j =>
          exfalso
          have haddfail : GameMap.add_player mid pid
              (w1.setPlayer pid { p1 with map := some mid }) =
              (.error (if j = pid then Err.alreadyRegistered "player" p1.name
                else Err.duplicateName "player" p1.name),
               w1.setPlayer pid { p1 with map := some mid }, []) := by
            by_cases hj : j = pid <;>
              simp [GameMap.add_player, GameMap.add_entity, Bind.bind, Act.bindF,
                getMapA, getPlayerA, throwE, hmA, hfree, hj]
          have hfail : ((GameMap.add_player mid pid >>= fun _ =>
              Player.default_scene_ref mid sref >>= fun sr =>
              GameMap.scene mid sr >>= fun sid =>
              Scene.enter sid (EntRef.obj pid)) (w1.setPlayer pid { p1 with map := some mid })).1 =
              .error (if j = pid then Err.alreadyRegistered "player" p1.name
                else Err.duplicateName "player" p1.name) := by
            have h := Act.result_bind (GameMap.add_player mid pid)
              (fun _ => Player.default_scene_ref mid sref >>= fun sr =>
                GameMap.scene mid sr >>= fun sid =>
                Scene.enter sid (EntRef.obj pid)) (w1.setPlayer pid { p1 with map := some mid })
            rw [haddfail] at h
            simpa using h
          rw [hfail] at hok
          exact Except.noConfusion hok
      | none =>
          have hadd : GameMap.add_player mid pid
              (w1.setPlayer pid { p1 with map := some mid }) =
              (.ok (), (w1.setMap mid { msA with players := dictSet msA.players p1.name pid }).setPlayer pid { p1 with map := some mid, messages := p1.messages ++ ["Welcome, player " ++ p1.name ++ " to the map " ++ msA.name ++ "!"] }, []) := by
            have h := run_add_player_ok
              (show (w1.setPlayer pid { p1 with map := some mid }).maps mid = some msA from hmA)
              (World.players_setPlayer_self ..)
              (show dictGet msA.players (Player.name { p1 with map := some mid }) = none from hfree)
            simpa [World.setMap_setPlayer_comm, World.setPlayer_setPlayer] using h
          have hCB : Consistent ((w1.setMap mid { msA with players := dictSet msA.players p1.name pid }).setPlayer pid { p1 with map := some mid, messages := p1.messages ++ ["Welcome, player " ++ p1.name ++ " to the map " ++ msA.name ++ "!"] }) :=
            consistent_after_add hC1 hp1 hmap1 hmA hfree rfl rfl
          have hwB1 : ((GameMap.add_player mid pid >>= fun _ =>
              Player.default_scene_ref mid sref >>= fun sr =>
              GameMap.scene mid sr >>= fun sid =>
              Scene.enter sid (EntRef.obj pid)) (w1.setPlayer pid { p1 with map := some mid })).2.1 =
              ((Player.default_scene_ref mid sref >>= fun sr =>
               GameMap.scene mid sr >>= fun sid =>
               Scene.enter sid (EntRef.obj pid)) ((w1.setMap mid { msA with players := dictSet msA.players p1.name pid }).setPlayer pid { p1 with map := some mid, messages := p1.messages ++ ["Welcome, player " ++ p1.name ++ " to the map " ++ msA.name ++ "!"] })).2.1 := by
            have h := Act.world_bind (GameMap.add_player mid pid)
              (fun _ => Player.default_scene_ref mid sref >>= fun sr =>
                GameMap.scene mid sr >>= fun sid =>
                Scene.enter sid (EntRef.obj pid)) (w1.setPlayer pid { p1 with map := some mid })
            rw [hadd] at h
            simpa using h
          rw [hwB1]
          have hwd := Act.world_bind (Player.default_scene_ref mid sref)
            (fun sr => GameMap.scene mid sr >>= fun sid => Scene.enter sid (EntRef.obj pid))
            ((w1.setMap mid { msA with players := dictSet msA.players p1.name pid }).setPlayer pid { p1 with map := some mid, messages := p1.messages ++ ["Welcome, player " ++ p1.name ++ " to the map " ++ msA.name ++ "!"] })
          rw [readOnlyRun_default_scene_ref mid sref _] at hwd
          cases hd : (Player.default_scene_ref mid sref
              ((w1.setMap mid { msA with players := dictSet msA.players p1.name pid }).setPlayer pid { p1 with map := some mid, messages := p1.messages ++ ["Welcome, player " ++ p1.name ++ " to the map " ++ msA.name ++ "!"] })).1 with
          | error e =>
              rw [hd] at hwd
              simp only [] at hwd
              rw [hwd]
              exact hCB
          | ok sr =>
              rw [hd] at hwd
              simp only [] at hwd
              rw [hwd]
              have hwc := Act.world_bind (GameMap.scene mid sr)
                (fun sid => Scene.enter sid (EntRef.obj pid))
                ((w1.setMap mid { msA with players := dictSet msA.players p1.name pid }).setPlayer pid { p1 with map := some mid, messages := p1.messages ++ ["Welcome, player " ++ p1.name ++ " to the map " ++ msA.name ++ "!"] })
              rw [readOnlyRun_map_scene mid sr _] at hwc
              cases hc : (GameMap.scene mid sr
                  ((w1.setMap mid { msA with players := dictSet msA.players p1.name pid }).setPlayer pid { p1 with map := some mid, messages := p1.messages ++ ["Welcome, player " ++ p1.name ++ " to the map " ++ msA.name ++ "!"] })).1 with
              | error e =>
                  rw [hc] at hwc
                  simp only [] at hwc
                  rw [hwc]
                  exact hCB
              | ok sid =>
                  rw [hc] at hwc
                  simp only [] at hwc
                  rw [hwc]
                  have hcp := corePres_scene_enter sid (EntRef.obj pid)
                    ((w1.setMap mid { msA with players := dictSet msA.players p1.name pid }).setPlayer pid { p1 with map := some mid, messages := p1.messages ++ ["Welcome, player " ++ p1.name ++ " to the map " ++ msA.name ++ "!"] })
                  exact consistent_of_core hcp.1 hcp.2 hCB

/-- Concrete world for C4: map 0 registers player 0 under the name "al";
player 1, not attached anywhere, carries the same name "al". -/
def mapC4 : GameMap :=
  { name := "M", starting_scene := some "scene", scenes := [("scene", 0)], players := [("al", 0)] }

/-- See `mapC4`. -/
def worldC4 : World :=
  { players := fun i =>
      if i = 0 then some { name := "al", inv := [], state := [], messages := [], map := some 0, scene := none }
      else if i = 1 then some { name := "al", inv := [], state := [], messages := [], map := none, scene := none }
      else none
  , scenes := fun i => if i = 0 then some { cls := SceneClass.scene, name := "scene", map := 0, state := [] } else none
  , maps := fun i => if i = 0 then some mapC4 else none }

/-- The starting world of the C4 counterexample satisfies the two-sided
map-pointer and registry invariant. -/
theorem consistent_worldC4 : Consistent worldC4 := by
  refine ⟨?_, ?_, ?_⟩
  · intro mid ms hms
    by_cases hm : mid = 0
    · subst hm
      simp [worldC4] at hms
      rw [← hms]
      decide
    · simp [worldC4, hm] at hms
  · intro pid p hp mid
    by_cases h0 : pid = 0
    · subst h0
      simp [worldC4] at hp
      subst hp
      constructor
      · intro hpm
        simp at hpm
        subst hpm
        exact ⟨mapC4, rfl, by decide⟩
      · rintro ⟨ms, hms, hget⟩
        by_cases hm : mid = 0
        · subst hm
          simp
        · simp [worldC4, hm] at hms
    · by_cases h1 : pid = 1
      · subst h1
        simp [worldC4] at hp
        subst hp
        constructor
        · intro hpm
          simp at hpm
        · rintro ⟨ms, hms, hget⟩
          by_cases hm : mid = 0
          · subst hm
            simp [worldC4] at hms
            rw [← hms] at hget
            exact absurd hget (by decide)
          · simp [worldC4, hm] at hms
      · simp [worldC4, h0, h1] at hp
  · intro mid ms nm pid hms hget
    by_cases hm : mid = 0
    · subst hm
      simp [worldC4] at hms
      rw [← hms] at hget
      by_cases hnm : nm = "al"
      · subst hnm
        simp [mapC4, dictGet] at hget
        subst hget
        exact ⟨_, rfl, rfl⟩
      · simp [mapC4, dictGet] at hget
        exact absurd hget.1.symm hnm
    · simp [worldC4, hm] at hms

/-- The world left behind by the failed `enter_map` of the C4 counterexample:
the map pointer of player 1 was already flipped to map 0 before the
registration attempt raised, and the raise does not roll it back. -/
def worldC4post : World :=
  worldC4.setPlayer 1 { name := "al", inv := [], state := [], messages := [], map := some 0, scene := none }

/-- C4: amended. The spec asserts the two-sided invariant (the player map
pointer is set to a map exactly when the player is registered under its name
in that map) after every `enter_map` or `leave_map` call, failures included,
with all-or-nothing mutation on failure. The failure half is refuted by
`claim_C4_cex`; what the code does guarantee is: from a consistent world,
`leave_map` on an existing player always succeeds, preserves consistency,
detaches the player, and keeps its name; and every `enter_map` call that
returns success preserves consistency. -/
theorem claim_C4 :
    (∀ pid w p, Consistent w → w.players pid = some p →
      ∃ w1 p1, Player.leave_map pid w = (Except.ok (), w1, ([] : List Ev)) ∧
        Consistent w1 ∧ w1.players pid = some p1 ∧ p1.map = none ∧ p1.name = p.name) ∧
    (∀ pid mid sref w p, Consistent w → w.players pid = some p →
      (Player.enter_map pid mid sref w).1 = Except.ok () →
      Consistent (Player.enter_map pid mid sref w).2.1) :=
  ⟨fun _ _ _ hC hp => leave_map_spec hC hp,
   fun _ _ sref _ _ hC hp hok => enter_map_consistent sref hC hp hok⟩

/-- C4 counterexample: starting from the consistent `worldC4`, player 1 tries
to enter map 0 while a different player already holds the name "al" there. The
call fails with DuplicateName, yet it leaves the map pointer of player 1 set
to map 0 without a registry entry: the failed call is not all-or-nothing and
breaks the two-sided invariant the claim asserts for failing calls too. -/
theorem claim_C4_cex :
    Consistent worldC4 ∧
    Player.enter_map 1 0 none worldC4 =
      (Except.error (Err.duplicateName "player" "al"), worldC4post, ([] : List Ev)) ∧
    ¬ Consistent worldC4post := by
  refine ⟨consistent_worldC4, rfl, ?_⟩
  intro hC
  have h2 := hC.2.1 1 { name := "al", inv := [], state := [], messages := [], map := some 0, scene := none } rfl 0
  obtain ⟨ms, hms, hget⟩ := h2.mp rfl
  have hms2 : (some mapC4 : Option GameMap) = some ms := hms
  have hmseq : mapC4 = ms := Option.some.inj hms2
  rw [← hmseq] at hget
  exact absurd hget (by decide)

/-- C4 witness: the amended theorem applied to the concrete consistent world
`worldC4` and its detached player 1. -/
theorem claim_C4_witness :
    Consistent worldC4 ∧
    worldC4.players 1 = some { name := "al", inv := [], state := [], messages := [], map := none, scene := none } ∧
    ∃ w1 p1, Player.leave_map 1 worldC4 = (Except.ok (), w1, ([] : List Ev)) ∧
      Consistent w1 ∧ w1.players 1 = some p1 ∧ p1.map = none ∧ p1.name = "al" :=
  ⟨consistent_worldC4, rfl,
   claim_C4.1 1 worldC4 { name := "al", inv := [], state := [], messages := [], map := none, scene := none }
     consistent_worldC4 rfl⟩

end Dungeon
